/-
Verification of the tacozip ZIP64 writer (src/src/tacozip.c, src/include/tacozip.h).

Shallow embedding: files are lists of natural numbers (bytes, values < 256),
machine integers are naturals with explicit reduction modulo 2^w where the C
code truncates, and fallible operations return `Except Err`.  Each definition
mirrors the C function of the same name.
-/
import Mathlib

namespace Tacozip

/-! ## Constants (from tacozip.c / tacozip.h) -/

def SIG_LFH : Nat := 0x04034B50
def SIG_CDFH : Nat := 0x02014B50
def SIG_EOCD : Nat := 0x06054B50
def SIG_ZIP64_EOCD : Nat := 0x06064B50
def SIG_ZIP64_LOCATOR : Nat := 0x07064B50
def SIG_DD : Nat := 0x08074B50
def VER_NEEDED_ZIP64 : Nat := 45
def VER_MADE_BY : Nat := 0x031E
def GPFLAG_USE_DD : Nat := 0x0008
def GPFLAG_UTF8 : Nat := 0x0800
def METHOD_STORE : Nat := 0
def EXTRA_TOTAL_LEN : Nat := 116
def TACO_GHOST_MAX_ENTRIES : Nat := 7
def TACO_GHOST_NAME_LEN : Nat := 10

/-- The bytes of the string "TACO_GHOST" (ASCII). -/
def tacoGhostName : List Nat := [84, 65, 67, 79, 95, 71, 72, 79, 83, 84]

/-- Modelled from the spec: `TACO_GHOST_SIZE` is referenced by tacozip.c but its
defining header line is not under src/; the spec fixes the multi-pair ghost at
160 bytes. -/
def TACO_GHOST_SIZE : Nat := 160

/-- Modelled from the spec: `TACO_GHOST_EXTRA_ID` is referenced by tacozip.c
(with comment `0x7454`); the spec fixes the extra id at 0x7454. -/
def TACO_GHOST_EXTRA_ID : Nat := 0x7454

/-- Modelled from the spec: `TACO_GHOST_EXTRA_SIZE` is referenced by tacozip.c
(with comment `112 bytes of data`); the spec fixes the extra data size at 112. -/
def TACO_GHOST_EXTRA_SIZE : Nat := 112

/-- Return codes of the library (enum in tacozip.h): `TACOZ_ERR_IO`,
`TACOZ_ERR_LIBZIP`, `TACOZ_ERR_INVALID_GHOST`, `TACOZ_ERR_PARAM`. -/
inductive Err where
  | ioError
  | libzipError
  | invalidGhost
  | paramError
deriving DecidableEq, Repr

/-! ## Little-endian writers and readers (le16/le32/le64, le16_read/...) -/

/-- `le16`: the C routine stores `(unsigned char)v, (unsigned char)(v >> 8)`. -/
def le16 (v : Nat) : List Nat := [v % 256, v >>> 8 % 256]

/-- `le32`: four bytes, least significant first. -/
def le32 (v : Nat) : List Nat :=
  [v % 256, v >>> 8 % 256, v >>> 16 % 256, v >>> 24 % 256]

/-- `le64`: eight bytes, least significant first. -/
def le64 (v : Nat) : List Nat :=
  [v % 256, v >>> 8 % 256, v >>> 16 % 256, v >>> 24 % 256,
   v >>> 32 % 256, v >>> 40 % 256, v >>> 48 % 256, v >>> 56 % 256]

/-- `le16_read`: `p[0] | (p[1] << 8)`. -/
def le16_read (p : List Nat) : Nat := p.getD 0 0 ||| p.getD 1 0 <<< 8

/-- `le32_read`: `p[0] | p[1]<<8 | p[2]<<16 | p[3]<<24`. -/
def le32_read (p : List Nat) : Nat :=
  p.getD 0 0 ||| p.getD 1 0 <<< 8 ||| p.getD 2 0 <<< 16 ||| p.getD 3 0 <<< 24

/-- `le64_read`: the loop `for i in 0..8: v |= p[i] << (8*i)`, unrolled. -/
def le64_read (p : List Nat) : Nat :=
  p.getD 0 0 ||| p.getD 1 0 <<< 8 ||| p.getD 2 0 <<< 16 ||| p.getD 3 0 <<< 24 |||
  p.getD 4 0 <<< 32 ||| p.getD 5 0 <<< 40 ||| p.getD 6 0 <<< 48 ||| p.getD 7 0 <<< 56

/-! ## CRC32 (crc32_init_table / crc32_update_stream) -/

/-- One step of the table generator:
`c = (c & 1) ? (0xEDB88320 ^ (c >> 1)) : (c >> 1)`. -/
def crc32_step (c : Nat) : Nat :=
  if c &&& 1 = 1 then 0xEDB88320 ^^^ (c >>> 1) else c >>> 1

/-- `crc32_tab i` is the table entry for index `i` (8 generator steps). -/
def crc32_tab (i : Nat) : Nat := crc32_step^[8] i

/-- `crc32_update_stream`:
`crc = crc32_tab[(crc ^ buf[i]) & 0xFF] ^ (crc >> 8)` over the buffer. -/
def crc32_update_stream (crc : Nat) : List Nat → Nat
  | [] => crc
  | b :: rest => crc32_update_stream (crc32_tab ((crc ^^^ b) &&& 0xFF) ^^^ (crc >>> 8)) rest

/-- Whole-buffer CRC as add_file computes it: xor-in `0xFFFFFFFF`, stream,
xor-out `0xFFFFFFFF`. -/
def crc32_final (data : List Nat) : Nat :=
  crc32_update_stream 0xFFFFFFFF data ^^^ 0xFFFFFFFF

/-- CRC of data delivered in chunks, exactly as the read loop of add_file folds
it (xor-in, one `crc32_update_stream` call per chunk, xor-out). -/
def crc32_fold (chunks : List (List Nat)) : Nat :=
  chunks.foldl crc32_update_stream 0xFFFFFFFF ^^^ 0xFFFFFFFF

/-! ## Ghost record -/

/-- `taco_meta_array_t`: count byte plus the seven (offset, length) entries
(entries as a list of pairs; the library always builds it with 7 entries). -/
structure taco_meta_array_t where
  count : Nat
  entries : List (Nat × Nat)
deriving DecidableEq, Repr

/-- `count_valid_entries`: scan until the first (0,0) pair. -/
def count_valid_entries : List Nat → List Nat → Nat
  | o :: os, l :: ls => if o = 0 ∧ l = 0 then 0 else count_valid_entries os ls + 1
  | _, _ => 0

/-- `arrays_to_meta_struct`: count from `count_valid_entries`, all seven pairs
copied verbatim from the caller arrays. -/
def arrays_to_meta_struct (offsets lengths : List Nat) : taco_meta_array_t :=
  ⟨count_valid_entries offsets lengths, offsets.zip lengths⟩

/-- `write_ghost_multi`: the 160-byte ghost buffer.  Field layout as in the C
code: LFH header (30 bytes), name (10), extra header (4), count byte plus three
zero pad bytes, then seven little-endian (offset, length) pairs.  The count
field is a `uint8_t` in C, hence the `% 256`. -/
def write_ghost_multi (meta : taco_meta_array_t) : List Nat :=
  le32 SIG_LFH ++ le16 VER_NEEDED_ZIP64 ++ le16 0 ++ le16 0 ++ le16 0 ++ le16 0 ++
  le32 0 ++ le32 0 ++ le32 0 ++
  le16 TACO_GHOST_NAME_LEN ++ le16 EXTRA_TOTAL_LEN ++
  tacoGhostName ++
  le16 TACO_GHOST_EXTRA_ID ++ le16 TACO_GHOST_EXTRA_SIZE ++
  [meta.count % 256, 0, 0, 0] ++
  (meta.entries.map fun e => le64 e.1 ++ le64 e.2).flatten

/-- `write_ghost_legacy`: single-entry ghost (legacy API), entries 1..6 zero. -/
def write_ghost_legacy (meta_off meta_len : Nat) : List Nat :=
  write_ghost_multi ⟨if meta_off ≠ 0 ∨ meta_len ≠ 0 then 1 else 0,
                     (meta_off, meta_len) :: List.replicate 6 (0, 0)⟩

/-- `validate_ghost_buf_multi`: structural checks on the first 160 bytes, in
the order the C code performs them. -/
def validate_ghost_buf_multi (b : List Nat) : Except Err Unit :=
  if le32_read b ≠ SIG_LFH then .error .invalidGhost
  else if le16_read (b.drop 26) ≠ TACO_GHOST_NAME_LEN ∨
          le16_read (b.drop 28) ≠ EXTRA_TOTAL_LEN then .error .invalidGhost
  else if (b.drop 30).take 10 ≠ tacoGhostName then .error .invalidGhost
  else if le16_read (b.drop 40) ≠ TACO_GHOST_EXTRA_ID ∨
          le16_read (b.drop 42) ≠ TACO_GHOST_EXTRA_SIZE then .error .invalidGhost
  else if TACO_GHOST_MAX_ENTRIES < b.getD 44 0 then .error .invalidGhost
  else .ok ()

/-- `tacozip_read_ghost_multi`: read the first 160 bytes (short file is an I/O
error), validate, then decode count byte and all seven pairs. -/
def tacozip_read_ghost_multi (file : List Nat) : Except Err taco_meta_array_t :=
  if file.length < TACO_GHOST_SIZE then .error .ioError
  else
    let b := file.take TACO_GHOST_SIZE
    match validate_ghost_buf_multi b with
    | .error e => .error e
    | .ok () =>
      let count := b.getD 44 0
      if TACO_GHOST_MAX_ENTRIES < count then .error .invalidGhost
      else .ok ⟨count, (List.range 7).map fun i =>
        (le64_read (b.drop (48 + i * 16)), le64_read (b.drop (48 + i * 16 + 8)))⟩

/-! ## Entry writer (add_file) and central directory bookkeeping -/

/-- `cd_ent_t`: per-entry bookkeeping for the central directory. -/
structure cd_ent_t where
  name : List Nat
  gp_flags : Nat
  method : Nat
  crc32 : Nat
  comp_size : Nat
  uncomp_size : Nat
  lfh_offset : Nat
deriving DecidableEq, Repr, Inhabited

/-- The general-purpose flags add_file uses: always the data-descriptor bit,
plus bit 11 when the build flag `TACOZ_SET_UTF8_FLAG` is on. -/
def gpflags_of (utf8 : Bool) : Nat :=
  if utf8 then GPFLAG_USE_DD ||| GPFLAG_UTF8 else GPFLAG_USE_DD

/-- The 30-byte LFH emitted for an entry: unknown sizes (`0xFFFFFFFF`
sentinels), zero time/date, zero CRC, no LFH extra field. -/
def lfh_bytes (gpflags : Nat) (name : List Nat) : List Nat :=
  le32 SIG_LFH ++ le16 VER_NEEDED_ZIP64 ++ le16 gpflags ++ le16 METHOD_STORE ++
  le16 0 ++ le16 0 ++ le32 0 ++ le32 0xFFFFFFFF ++ le32 0xFFFFFFFF ++
  le16 name.length ++ le16 0

/-- The ZIP64 data descriptor: signature, CRC32, comp size (= raw size under
STORE), uncomp size. -/
def dd_bytes (crc sz : Nat) : List Nat :=
  le32 SIG_DD ++ le32 crc ++ le64 sz ++ le64 sz

/-- `add_file`: reject names longer than 65535 bytes, then emit
LFH ++ name ++ data ++ data descriptor and record the entry.  `lfh_off` is the
output position at which this block begins (what `ftello` returns in C). -/
def add_file (utf8 : Bool) (lfh_off : Nat) (arc_name data : List Nat) :
    Except Err (List Nat × cd_ent_t) :=
  if 0xFFFF < arc_name.length then .error .paramError
  else
    let gpflags := gpflags_of utf8
    let crc := crc32_final data
    .ok (lfh_bytes gpflags arc_name ++ arc_name ++ data ++ dd_bytes crc data.length,
         { name := arc_name, gp_flags := gpflags, method := METHOD_STORE,
           crc32 := crc, comp_size := data.length, uncomp_size := data.length,
           lfh_offset := lfh_off })

/-- The create loop over all files, threading the output offset. -/
def add_files (utf8 : Bool) (off : Nat) :
    List (List Nat × List Nat) → Except Err (List Nat × List cd_ent_t)
  | [] => .ok ([], [])
  | (name, data) :: rest =>
    match add_file utf8 off name data with
    | .error e => .error e
    | .ok (bytes, ent) =>
      match add_files utf8 (off + bytes.length) rest with
      | .error e => .error e
      | .ok (bs, es) => .ok (bytes ++ bs, ent :: es)

/-- `add_file` when the source bytes arrive in read chunks, exactly as the
streaming loop consumes them: CRC folded chunk by chunk, size accumulated,
chunks written in order. -/
def add_file_chunked (utf8 : Bool) (lfh_off : Nat) (arc_name : List Nat)
    (chunks : List (List Nat)) : Except Err (List Nat × cd_ent_t) :=
  if 0xFFFF < arc_name.length then .error .paramError
  else
    let gpflags := gpflags_of utf8
    let crc := crc32_fold chunks
    let sz := (chunks.map List.length).sum
    .ok (lfh_bytes gpflags arc_name ++ arc_name ++ chunks.flatten ++ dd_bytes crc sz,
         { name := arc_name, gp_flags := gpflags, method := METHOD_STORE,
           crc32 := crc, comp_size := sz, uncomp_size := sz,
           lfh_offset := lfh_off })

/-- The create loop when each source file is delivered as a chunk list. -/
def add_files_chunked (utf8 : Bool) (off : Nat) :
    List (List Nat × List (List Nat)) → Except Err (List Nat × List cd_ent_t)
  | [] => .ok ([], [])
  | (name, chunks) :: rest =>
    match add_file_chunked utf8 off name chunks with
    | .error e => .error e
    | .ok (bytes, ent) =>
      match add_files_chunked utf8 (off + bytes.length) rest with
      | .error e => .error e
      | .ok (bs, es) => .ok (bytes ++ bs, ent :: es)

/-! ## Central directory + EOCD (write_cd_and_eocd) -/

/-- One contiguous central-directory block for an entry:
46-byte CDFH ++ name ++ 28-byte ZIP64 extra. -/
def cdfh_block (e : cd_ent_t) : List Nat :=
  le32 SIG_CDFH ++ le16 VER_MADE_BY ++ le16 VER_NEEDED_ZIP64 ++
  le16 e.gp_flags ++ le16 e.method ++ le16 0 ++ le16 0 ++
  le32 e.crc32 ++ le32 0xFFFFFFFF ++ le32 0xFFFFFFFF ++
  le16 e.name.length ++ le16 28 ++ le16 0 ++ le16 0 ++ le16 0 ++
  le32 0 ++ le32 0xFFFFFFFF ++
  e.name ++
  le16 0x0001 ++ le16 24 ++ le64 e.uncomp_size ++ le64 e.comp_size ++
  le64 e.lfh_offset

/-- The per-entry loop of write_cd_and_eocd, with its name-length re-check. -/
def cdfh_blocks : List cd_ent_t → Except Err (List Nat)
  | [] => .ok []
  | e :: rest =>
    if 0xFFFF < e.name.length then .error .paramError
    else
      match cdfh_blocks rest with
      | .error err => .error err
      | .ok bs => .ok (cdfh_block e ++ bs)

/-- The 56-byte ZIP64 EOCD: entry counts appear twice (this disk / total). -/
def zip64_eocd_bytes (total_entries cd_size cd_start : Nat) : List Nat :=
  le32 SIG_ZIP64_EOCD ++ le64 44 ++ le16 VER_MADE_BY ++ le16 VER_NEEDED_ZIP64 ++
  le32 0 ++ le32 0 ++ le64 total_entries ++ le64 total_entries ++
  le64 cd_size ++ le64 cd_start

/-- The 20-byte ZIP64 locator, pointing at the ZIP64 EOCD. -/
def zip64_locator_bytes (z64e_off : Nat) : List Nat :=
  le32 SIG_ZIP64_LOCATOR ++ le32 0 ++ le64 z64e_off ++ le32 1

/-- The 22-byte classic EOCD with truncated maxima (sentinel values). -/
def eocd_bytes : List Nat :=
  le32 SIG_EOCD ++ le16 0 ++ le16 0 ++ le16 0xFFFF ++ le16 0xFFFF ++
  le32 0xFFFFFFFF ++ le32 0xFFFFFFFF ++ le16 0

/-- `write_cd_and_eocd` for entry list `ents`, starting at output position
`cd_start`: CDFH blocks, then ZIP64 EOCD, locator, classic EOCD. -/
def write_cd_and_eocd (ents : List cd_ent_t) (cd_start : Nat) :
    Except Err (List Nat) :=
  match cdfh_blocks ents with
  | .error e => .error e
  | .ok blocks =>
    let cd_end := cd_start + blocks.length
    .ok (blocks ++ zip64_eocd_bytes ents.length (cd_end - cd_start) cd_start ++
         zip64_locator_bytes cd_end ++ eocd_bytes)

/-! ## Archive creation -/

/-- Result of a successful create: the archive bytes and the recorded
central-directory entries. -/
structure CreateResult where
  bytes : List Nat
  ents : List cd_ent_t
deriving DecidableEq, Repr

/-- `tacozip_create_multi`: parameter checks (no files, wrong metadata array
size), then ghost ++ per-file blocks ++ central directory and trailers.  A file
is a pair (archive name bytes, source data bytes). -/
def tacozip_create_multi (utf8 : Bool) (files : List (List Nat × List Nat))
    (meta_offsets meta_lengths : List Nat) : Except Err CreateResult :=
  if files.length = 0 then .error .paramError
  else if meta_offsets.length ≠ TACO_GHOST_MAX_ENTRIES ∨
          meta_lengths.length ≠ TACO_GHOST_MAX_ENTRIES then .error .paramError
  else
    let meta := arrays_to_meta_struct meta_offsets meta_lengths
    let ghost := write_ghost_multi meta
    match add_files utf8 ghost.length files with
    | .error e => .error e
    | .ok (body, ents) =>
      match write_cd_and_eocd ents (ghost.length + body.length) with
      | .error e => .error e
      | .ok tail => .ok ⟨ghost ++ body ++ tail, ents⟩

/-- `tacozip_create_multi` with each source file delivered as a list of read
chunks (the environment-chosen chunking of the streaming loop). -/
def tacozip_create_multi_chunked (utf8 : Bool)
    (files : List (List Nat × List (List Nat)))
    (meta_offsets meta_lengths : List Nat) : Except Err CreateResult :=
  if files.length = 0 then .error .paramError
  else if meta_offsets.length ≠ TACO_GHOST_MAX_ENTRIES ∨
          meta_lengths.length ≠ TACO_GHOST_MAX_ENTRIES then .error .paramError
  else
    let meta := arrays_to_meta_struct meta_offsets meta_lengths
    let ghost := write_ghost_multi meta
    match add_files_chunked utf8 ghost.length files with
    | .error e => .error e
    | .ok (body, ents) =>
      match write_cd_and_eocd ents (ghost.length + body.length) with
      | .error e => .error e
      | .ok tail => .ok ⟨ghost ++ body ++ tail, ents⟩

/-- `tacozip_create` (legacy single-entry API). -/
def tacozip_create (utf8 : Bool) (files : List (List Nat × List Nat))
    (meta_offset meta_length : Nat) : Except Err CreateResult :=
  if files.length = 0 then .error .paramError
  else
    let ghost := write_ghost_legacy meta_offset meta_length
    match add_files utf8 ghost.length files with
    | .error e => .error e
    | .ok (body, ents) =>
      match write_cd_and_eocd ents (ghost.length + body.length) with
      | .error e => .error e
      | .ok tail => .ok ⟨ghost ++ body ++ tail, ents⟩

/-- `tacozip_create` with chunked source reads. -/
def tacozip_create_chunked (utf8 : Bool)
    (files : List (List Nat × List (List Nat)))
    (meta_offset meta_length : Nat) : Except Err CreateResult :=
  if files.length = 0 then .error .paramError
  else
    let ghost := write_ghost_legacy meta_offset meta_length
    match add_files_chunked utf8 ghost.length files with
    | .error e => .error e
    | .ok (body, ents) =>
      match write_cd_and_eocd ents (ghost.length + body.length) with
      | .error e => .error e
      | .ok tail => .ok ⟨ghost ++ body ++ tail, ents⟩

/-! ## In-place ghost update -/

/-- Overwrite `bytes` into `file` starting at position `pos` (the effect of a
seek to `pos` followed by a successful `fwrite`). -/
def writeAt (file : List Nat) (pos : Nat) (bytes : List Nat) : List Nat :=
  file.take pos ++ bytes ++ file.drop (pos + bytes.length)

/-- The pair-writing loop of `tacozip_update_ghost_multi`.  Write operation
number `i + 1` (the count byte was operation 0) patches pair `i` at offset
`48 + 16*i`; `wfail` says which write operations fail.  A failed write leaves
the file as it stood and returns the I/O error. -/
def update_pairs_go (file : List Nat) (entries : List (Nat × Nat)) (i : Nat)
    (wfail : Nat → Bool) : Except Err Unit × List Nat :=
  match entries with
  | [] => (.ok (), file)
  | e :: rest =>
    if wfail (i + 1) then (.error .ioError, file)
    else update_pairs_go (writeAt file (48 + i * 16) (le64 e.1 ++ le64 e.2))
           rest (i + 1) wfail

/-- `tacozip_update_ghost_multi`: parameter checks, read-and-validate the
existing ghost, then patch the count byte (write operation 0) and the seven
pairs (write operations 1..7) in place.  Returns the status together with the
resulting file contents; `wfail` models which `fwrite` calls fail. -/
def tacozip_update_ghost_multi (file : List Nat)
    (meta_offsets meta_lengths : List Nat) (wfail : Nat → Bool) :
    Except Err Unit × List Nat :=
  if meta_offsets.length ≠ TACO_GHOST_MAX_ENTRIES ∨
     meta_lengths.length ≠ TACO_GHOST_MAX_ENTRIES then (.error .paramError, file)
  else if file.length < TACO_GHOST_SIZE then (.error .ioError, file)
  else
    match validate_ghost_buf_multi (file.take TACO_GHOST_SIZE) with
    | .error e => (.error e, file)
    | .ok () =>
      let meta := arrays_to_meta_struct meta_offsets meta_lengths
      if wfail 0 then (.error .ioError, file)
      else update_pairs_go (writeAt file 44 [meta.count % 256]) meta.entries 0 wfail

/-- `tacozip_update_ghost` (legacy): read the current ghost, replace entry 0,
convert back to arrays (count is recomputed inside the multi updater), and
delegate to `tacozip_update_ghost_multi`. -/
def tacozip_update_ghost (file : List Nat) (new_offset new_length : Nat)
    (wfail : Nat → Bool) : Except Err Unit × List Nat :=
  match tacozip_read_ghost_multi file with
  | .error e => (.error e, file)
  | .ok meta =>
    let entries := meta.entries.set 0 (new_offset, new_length)
    let offsets := entries.map Prod.fst
    let lengths := entries.map Prod.snd
    tacozip_update_ghost_multi file offsets lengths wfail

/-! ## Byte-codec lemmas -/

theorem lor_shl_eq_add (a b k e : Nat) (hek : 2 ^ k = e) (h : a < e) :
    a ||| b <<< k = a + b * e := by
  subst hek
  rw [Nat.shiftLeft_eq, Nat.lor_comm, Nat.mul_comm b (2 ^ k),
    ← Nat.mul_add_lt_is_or h, Nat.add_comm]

theorem le64_read_cons (b0 b1 b2 b3 b4 b5 b6 b7 : Nat) (t : List Nat)
    (h0 : b0 < 256) (h1 : b1 < 256) (h2 : b2 < 256) (h3 : b3 < 256)
    (h4 : b4 < 256) (h5 : b5 < 256) (h6 : b6 < 256) (h7 : b7 < 256) :
    le64_read (b0 :: b1 :: b2 :: b3 :: b4 :: b5 :: b6 :: b7 :: t) =
      b0 + b1 * 256 + b2 * 65536 + b3 * 16777216 + b4 * 4294967296 +
      b5 * 1099511627776 + b6 * 281474976710656 + b7 * 72057594037927936 := by
  have h7' : b7 * 72057594037927936 ≤ 18374686479671623680 := by omega
  simp only [le64_read, List.getD_cons_zero, List.getD_cons_succ]
  rw [lor_shl_eq_add _ _ 8 256 (by norm_num) (by omega)]
  rw [lor_shl_eq_add _ _ 16 65536 (by norm_num) (by omega)]
  rw [lor_shl_eq_add _ _ 24 16777216 (by norm_num) (by omega)]
  rw [lor_shl_eq_add _ _ 32 4294967296 (by norm_num) (by omega)]
  rw [lor_shl_eq_add _ _ 40 1099511627776 (by norm_num) (by omega)]
  rw [lor_shl_eq_add _ _ 48 281474976710656 (by norm_num) (by omega)]
  rw [lor_shl_eq_add _ _ 56 72057594037927936 (by norm_num) (by omega)]

theorem le64_read_le64_append (v : Nat) (t : List Nat) :
    le64_read (le64 v ++ t) = v % 18446744073709551616 := by
  show le64_read (_ :: _ :: _ :: _ :: _ :: _ :: _ :: _ :: t) = _
  rw [le64_read_cons _ _ _ _ _ _ _ _ t (Nat.mod_lt _ (by norm_num))
    (Nat.mod_lt _ (by norm_num)) (Nat.mod_lt _ (by norm_num))
    (Nat.mod_lt _ (by norm_num)) (Nat.mod_lt _ (by norm_num))
    (Nat.mod_lt _ (by norm_num)) (Nat.mod_lt _ (by norm_num))
    (Nat.mod_lt _ (by norm_num))]
  simp only [Nat.shiftRight_eq_div_pow]
  norm_num
  omega

theorem le64_le64_read_cons (b0 b1 b2 b3 b4 b5 b6 b7 : Nat) (t : List Nat)
    (h0 : b0 < 256) (h1 : b1 < 256) (h2 : b2 < 256) (h3 : b3 < 256)
    (h4 : b4 < 256) (h5 : b5 < 256) (h6 : b6 < 256) (h7 : b7 < 256) :
    le64 (le64_read (b0 :: b1 :: b2 :: b3 :: b4 :: b5 :: b6 :: b7 :: t)) =
      [b0, b1, b2, b3, b4, b5, b6, b7] := by
  rw [le64_read_cons _ _ _ _ _ _ _ _ t h0 h1 h2 h3 h4 h5 h6 h7]
  simp only [le64, Nat.shiftRight_eq_div_pow, List.cons.injEq, and_true]
  norm_num
  omega

/-! ## Ghost lemmas -/

theorem pairs_flatten_length (ps : List (Nat × Nat)) :
    ((ps.map fun e => le64 e.1 ++ le64 e.2).flatten).length = 16 * ps.length := by
  induction ps with
  | nil => rfl
  | cons p rest ih =>
    have h16 : (le64 p.1 ++ le64 p.2).length = 16 := rfl
    rw [List.map_cons, List.flatten_cons, List.length_append, h16, ih,
      List.length_cons]
    omega

theorem write_ghost_multi_length (m : taco_meta_array_t)
    (h : m.entries.length = 7) : (write_ghost_multi m).length = 160 := by
  have h16 := pairs_flatten_length m.entries
  simp only [write_ghost_multi, List.length_append, h16, h]
  norm_num [le16, le32, tacoGhostName]

theorem count_valid_entries_le (offsets lengths : List Nat) :
    count_valid_entries offsets lengths ≤ offsets.length := by
  induction offsets generalizing lengths with
  | nil => simp [count_valid_entries]
  | cons o os ih =>
    cases lengths with
    | nil => simp [count_valid_entries]
    | cons l ls =>
      simp only [count_valid_entries]
      split
      · omega
      · have := ih ls
        simp only [List.length_cons]
        omega

theorem count_valid_entries_takeWhile (offsets lengths : List Nat) :
    count_valid_entries offsets lengths =
      ((offsets.zip lengths).takeWhile fun p => !(p.1 == 0 && p.2 == 0)).length := by
  induction offsets generalizing lengths with
  | nil => simp [count_valid_entries]
  | cons o os ih =>
    cases lengths with
    | nil => simp [count_valid_entries]
    | cons l ls =>
      simp only [count_valid_entries, List.zip_cons_cons, List.takeWhile]
      by_cases h : o = 0 ∧ l = 0
      · simp [h.1, h.2]
      · rw [if_neg h]
        have hb : (!(o == 0 && l == 0)) = true := by
          simp only [Bool.not_eq_eq_eq_not, Bool.not_true, Bool.and_eq_false_imp,
            beq_iff_eq, decide_eq_false_iff_not]
          by_cases ho : o = 0
          · simp [ho]; intro hl; exact h ⟨ho, hl⟩
          · simp [ho]
        simp [hb, ih ls, List.zip]

theorem validate_ghost_buf_multi_write
    (c o0 l0 o1 l1 o2 l2 o3 l3 o4 l4 o5 l5 o6 l6 : Nat) (hc : c ≤ 7) :
    validate_ghost_buf_multi
      (write_ghost_multi ⟨c, [(o0,l0),(o1,l1),(o2,l2),(o3,l3),(o4,l4),(o5,l5),(o6,l6)]⟩) =
      .ok () := by
  have e1 : le32_read
      (write_ghost_multi ⟨c, [(o0,l0),(o1,l1),(o2,l2),(o3,l3),(o4,l4),(o5,l5),(o6,l6)]⟩) =
      SIG_LFH := by
    show (80 ||| 75 <<< 8 ||| 3 <<< 16 ||| 4 <<< 24 : Nat) = SIG_LFH
    rfl
  have e2 : le16_read
      ((write_ghost_multi ⟨c, [(o0,l0),(o1,l1),(o2,l2),(o3,l3),(o4,l4),(o5,l5),(o6,l6)]⟩).drop 26) =
      TACO_GHOST_NAME_LEN := by
    show (10 ||| 0 <<< 8 : Nat) = TACO_GHOST_NAME_LEN
    rfl
  have e3 : le16_read
      ((write_ghost_multi ⟨c, [(o0,l0),(o1,l1),(o2,l2),(o3,l3),(o4,l4),(o5,l5),(o6,l6)]⟩).drop 28) =
      EXTRA_TOTAL_LEN := by
    show (116 ||| 0 <<< 8 : Nat) = EXTRA_TOTAL_LEN
    rfl
  have e4 : ((write_ghost_multi ⟨c, [(o0,l0),(o1,l1),(o2,l2),(o3,l3),(o4,l4),(o5,l5),(o6,l6)]⟩).drop 30).take 10 =
      tacoGhostName := rfl
  have e5 : le16_read
      ((write_ghost_multi ⟨c, [(o0,l0),(o1,l1),(o2,l2),(o3,l3),(o4,l4),(o5,l5),(o6,l6)]⟩).drop 40) =
      TACO_GHOST_EXTRA_ID := by
    show (84 ||| 116 <<< 8 : Nat) = TACO_GHOST_EXTRA_ID
    rfl
  have e6 : le16_read
      ((write_ghost_multi ⟨c, [(o0,l0),(o1,l1),(o2,l2),(o3,l3),(o4,l4),(o5,l5),(o6,l6)]⟩).drop 42) =
      TACO_GHOST_EXTRA_SIZE := by
    show (112 ||| 0 <<< 8 : Nat) = TACO_GHOST_EXTRA_SIZE
    rfl
  have e7 : (write_ghost_multi ⟨c, [(o0,l0),(o1,l1),(o2,l2),(o3,l3),(o4,l4),(o5,l5),(o6,l6)]⟩).getD 44 0 =
      c % 256 := rfl
  have hcc : c % 256 = c := Nat.mod_eq_of_lt (by omega)
  unfold validate_ghost_buf_multi
  rw [e1, e2, e3, e4, e5, e6, e7, hcc]
  simp [TACO_GHOST_MAX_ENTRIES, Nat.not_lt.mpr hc]

/-- Evaluation rule for `tacozip_read_ghost_multi` given the outcome of each of
its internal steps. -/
theorem tacozip_read_ghost_multi_eval (file : List Nat) (c : Nat)
    (es : List (Nat × Nat))
    (hlen : ¬ (file.length < TACO_GHOST_SIZE))
    (hval : validate_ghost_buf_multi (file.take TACO_GHOST_SIZE) = .ok ())
    (h44 : (file.take TACO_GHOST_SIZE).getD 44 0 = c)
    (hc : ¬ (TACO_GHOST_MAX_ENTRIES < c))
    (hes : (List.range 7).map (fun i =>
        (le64_read ((file.take TACO_GHOST_SIZE).drop (48 + i * 16)),
         le64_read ((file.take TACO_GHOST_SIZE).drop (48 + i * 16 + 8)))) = es) :
    tacozip_read_ghost_multi file = .ok ⟨c, es⟩ := by
  simp only [tacozip_read_ghost_multi]
  rw [if_neg hlen, hval]
  show (if TACO_GHOST_MAX_ENTRIES < (file.take TACO_GHOST_SIZE).getD 44 0
        then Except.error Err.invalidGhost
        else Except.ok (taco_meta_array_t.mk ((file.take TACO_GHOST_SIZE).getD 44 0)
          ((List.range 7).map fun i =>
            (le64_read ((file.take TACO_GHOST_SIZE).drop (48 + i * 16)),
             le64_read ((file.take TACO_GHOST_SIZE).drop (48 + i * 16 + 8)))))) =
    Except.ok (taco_meta_array_t.mk c es)
  rw [h44, if_neg hc, hes]

/-- Reading back the ghost written by `write_ghost_multi` (with anything after
it in the file) recovers the count and all seven pairs reduced mod 2^64. -/
theorem read_ghost_write_ghost
    (c o0 l0 o1 l1 o2 l2 o3 l3 o4 l4 o5 l5 o6 l6 : Nat) (rest : List Nat)
    (hc : c ≤ 7) :
    tacozip_read_ghost_multi
      (write_ghost_multi ⟨c, [(o0,l0),(o1,l1),(o2,l2),(o3,l3),(o4,l4),(o5,l5),(o6,l6)]⟩ ++ rest) =
    .ok ⟨c, [(o0 % 18446744073709551616, l0 % 18446744073709551616),
             (o1 % 18446744073709551616, l1 % 18446744073709551616),
             (o2 % 18446744073709551616, l2 % 18446744073709551616),
             (o3 % 18446744073709551616, l3 % 18446744073709551616),
             (o4 % 18446744073709551616, l4 % 18446744073709551616),
             (o5 % 18446744073709551616, l5 % 18446744073709551616),
             (o6 % 18446744073709551616, l6 % 18446744073709551616)]⟩ := by
  have hlen : (write_ghost_multi ⟨c, [(o0,l0),(o1,l1),(o2,l2),(o3,l3),(o4,l4),(o5,l5),(o6,l6)]⟩).length = 160 := rfl
  have htake : (write_ghost_multi ⟨c, [(o0,l0),(o1,l1),(o2,l2),(o3,l3),(o4,l4),(o5,l5),(o6,l6)]⟩ ++ rest).take TACO_GHOST_SIZE =
      write_ghost_multi ⟨c, [(o0,l0),(o1,l1),(o2,l2),(o3,l3),(o4,l4),(o5,l5),(o6,l6)]⟩ :=
    List.take_left' hlen
  have hcc : c % 256 = c := Nat.mod_eq_of_lt (by omega)
  refine tacozip_read_ghost_multi_eval _ c _ ?_ ?_ ?_ ?_ ?_
  · rw [List.length_append, hlen]
    show ¬ (160 + rest.length < 160)
    omega
  · rw [htake]
    exact validate_ghost_buf_multi_write c o0 l0 o1 l1 o2 l2 o3 l3 o4 l4 o5 l5 o6 l6 hc
  · rw [htake]
    show c % 256 = c
    exact hcc
  · show ¬ (7 < c)
    omega
  · rw [htake]
    have hrange : List.range 7 = [0,1,2,3,4,5,6] := rfl
    rw [hrange]
    simp only [List.map_cons, List.map_nil]
    norm_num
    exact ⟨⟨le64_read_le64_append o0 _, le64_read_le64_append l0 _⟩,
      ⟨le64_read_le64_append o1 _, le64_read_le64_append l1 _⟩,
      ⟨le64_read_le64_append o2 _, le64_read_le64_append l2 _⟩,
      ⟨le64_read_le64_append o3 _, le64_read_le64_append l3 _⟩,
      ⟨le64_read_le64_append o4 _, le64_read_le64_append l4 _⟩,
      ⟨le64_read_le64_append o5 _, le64_read_le64_append l5 _⟩,
      ⟨le64_read_le64_append o6 _, le64_read_le64_append l6 _⟩⟩


/-- Splitting a successful `tacozip_create_multi` into its stages. -/
theorem create_multi_ok_shape {utf8 : Bool} {files : List (List Nat × List Nat)}
    {offs lens : List Nat} {r : CreateResult}
    (h : tacozip_create_multi utf8 files offs lens = .ok r) :
    files.length ≠ 0 ∧ offs.length = 7 ∧ lens.length = 7 ∧
    ∃ body ents tail,
      add_files utf8 160 files = .ok (body, ents) ∧
      write_cd_and_eocd ents (160 + body.length) = .ok tail ∧
      r = ⟨write_ghost_multi (arrays_to_meta_struct offs lens) ++ body ++ tail, ents⟩ := by
  simp only [tacozip_create_multi] at h
  split at h
  · exact absurd h (by simp)
  · split at h
    · exact absurd h (by simp)
    · rename_i hne harr
      have ho : offs.length = 7 := by
        simp only [TACO_GHOST_MAX_ENTRIES, not_or, not_not] at harr
        omega
      have hl : lens.length = 7 := by
        simp only [TACO_GHOST_MAX_ENTRIES, not_or, not_not] at harr
        omega
      have hglen : (write_ghost_multi (arrays_to_meta_struct offs lens)).length = 160 := by
        apply write_ghost_multi_length
        simp [arrays_to_meta_struct, List.length_zip, ho, hl]
      rw [hglen] at h
      refine ⟨hne, ho, hl, ?_⟩
      cases hadd : add_files utf8 160 files with
      | error e => rw [hadd] at h; simp at h
      | ok p =>
        obtain ⟨body, ents⟩ := p
        rw [hadd] at h
        simp only [Except.ok.injEq] at h
        cases hcd : write_cd_and_eocd ents (160 + body.length) with
        | error e => rw [hcd] at h; simp at h
        | ok tail =>
          rw [hcd] at h
          simp only [Except.ok.injEq] at h
          exact ⟨body, ents, tail, rfl, hcd, h.symm⟩

/-- A list of length 7 is a literal seven-element list. -/
theorem list_length_seven {α : Type} {l : List α} (h : l.length = 7) :
    ∃ a0 a1 a2 a3 a4 a5 a6, l = [a0, a1, a2, a3, a4, a5, a6] := by
  rcases l with _ | ⟨a0, _ | ⟨a1, _ | ⟨a2, _ | ⟨a3, _ | ⟨a4, _ | ⟨a5, _ | ⟨a6, _ | ⟨a7, l⟩⟩⟩⟩⟩⟩⟩⟩ <;>
    simp only [List.length_nil, List.length_cons] at h <;>
    first
      | exact ⟨a0, a1, a2, a3, a4, a5, a6, rfl⟩
      | omega

/-- Reading the ghost of a freshly created archive yields the automatic count
and the caller's seven pairs verbatim (shared helper). -/
theorem read_ghost_after_create (utf8 : Bool)
    (files : List (List Nat × List Nat)) (offs lens : List Nat)
    (r : CreateResult)
    (hbo : ∀ v ∈ offs, v < 2 ^ 64) (hbl : ∀ v ∈ lens, v < 2 ^ 64)
    (h : tacozip_create_multi utf8 files offs lens = .ok r) :
    tacozip_read_ghost_multi r.bytes =
      .ok ⟨count_valid_entries offs lens, offs.zip lens⟩ := by
  obtain ⟨hne, ho, hl, body, ents, tail, hadd, hcd, hr⟩ := create_multi_ok_shape h
  obtain ⟨o0, o1, o2, o3, o4, o5, o6, rfl⟩ := list_length_seven ho
  obtain ⟨l0, l1, l2, l3, l4, l5, l6, rfl⟩ := list_length_seven hl
  have hc : count_valid_entries [o0,o1,o2,o3,o4,o5,o6] [l0,l1,l2,l3,l4,l5,l6] ≤ 7 := by
    have := count_valid_entries_le [o0,o1,o2,o3,o4,o5,o6] [l0,l1,l2,l3,l4,l5,l6]
    simpa using this
  have hb : r.bytes =
      write_ghost_multi ⟨count_valid_entries [o0,o1,o2,o3,o4,o5,o6] [l0,l1,l2,l3,l4,l5,l6],
        [(o0,l0),(o1,l1),(o2,l2),(o3,l3),(o4,l4),(o5,l5),(o6,l6)]⟩ ++ (body ++ tail) := by
    rw [hr]
    show write_ghost_multi (arrays_to_meta_struct _ _) ++ body ++ tail = _
    rw [List.append_assoc]
    rfl
  rw [hb, read_ghost_write_ghost _ o0 l0 o1 l1 o2 l2 o3 l3 o4 l4 o5 l5 o6 l6 (body ++ tail) hc]
  have b0 : o0 % 18446744073709551616 = o0 := Nat.mod_eq_of_lt (by have := hbo o0 (by simp); omega)
  have b1 : o1 % 18446744073709551616 = o1 := Nat.mod_eq_of_lt (by have := hbo o1 (by simp); omega)
  have b2 : o2 % 18446744073709551616 = o2 := Nat.mod_eq_of_lt (by have := hbo o2 (by simp); omega)
  have b3 : o3 % 18446744073709551616 = o3 := Nat.mod_eq_of_lt (by have := hbo o3 (by simp); omega)
  have b4 : o4 % 18446744073709551616 = o4 := Nat.mod_eq_of_lt (by have := hbo o4 (by simp); omega)
  have b5 : o5 % 18446744073709551616 = o5 := Nat.mod_eq_of_lt (by have := hbo o5 (by simp); omega)
  have b6 : o6 % 18446744073709551616 = o6 := Nat.mod_eq_of_lt (by have := hbo o6 (by simp); omega)
  have c0 : l0 % 18446744073709551616 = l0 := Nat.mod_eq_of_lt (by have := hbl l0 (by simp); omega)
  have c1 : l1 % 18446744073709551616 = l1 := Nat.mod_eq_of_lt (by have := hbl l1 (by simp); omega)
  have c2 : l2 % 18446744073709551616 = l2 := Nat.mod_eq_of_lt (by have := hbl l2 (by simp); omega)
  have c3 : l3 % 18446744073709551616 = l3 := Nat.mod_eq_of_lt (by have := hbl l3 (by simp); omega)
  have c4 : l4 % 18446744073709551616 = l4 := Nat.mod_eq_of_lt (by have := hbl l4 (by simp); omega)
  have c5 : l5 % 18446744073709551616 = l5 := Nat.mod_eq_of_lt (by have := hbl l5 (by simp); omega)
  have c6 : l6 % 18446744073709551616 = l6 := Nat.mod_eq_of_lt (by have := hbl l6 (by simp); omega)
  rw [b0, b1, b2, b3, b4, b5, b6, c0, c1, c2, c3, c4, c5, c6]
  rfl

/-- Claim C1: for every input of 7 (offset, length) pairs, after a successful
`tacozip_create_multi`, `tacozip_read_ghost_multi` on the produced archive
returns exactly the 7 input pairs, and returns a count equal to the number of
leading pairs of the input before the first pair that is (0,0). -/
theorem ghost_roundtrip_create_read (utf8 : Bool)
    (files : List (List Nat × List Nat)) (offs lens : List Nat)
    (r : CreateResult)
    (hbo : ∀ v ∈ offs, v < 2 ^ 64) (hbl : ∀ v ∈ lens, v < 2 ^ 64)
    (h : tacozip_create_multi utf8 files offs lens = .ok r) :
    tacozip_read_ghost_multi r.bytes =
      .ok ⟨count_valid_entries offs lens, offs.zip lens⟩ ∧
    count_valid_entries offs lens =
      ((offs.zip lens).takeWhile fun p => !(p.1 == 0 && p.2 == 0)).length :=
  ⟨read_ghost_after_create utf8 files offs lens r hbo hbl h,
   count_valid_entries_takeWhile offs lens⟩

/-- Witness for C1 at a concrete input (spec scenario E6). -/
theorem ghost_roundtrip_create_read_witness :
    (tacozip_create_multi false [([97],[])] [10,20,0,0,0,0,0] [1,2,0,0,0,0,0]).map
        (fun r => tacozip_read_ghost_multi r.bytes) =
      .ok (.ok ⟨2, [(10,1),(20,2),(0,0),(0,0),(0,0),(0,0),(0,0)]⟩) := by
  have hok : (tacozip_create_multi false [([97],[])] [10,20,0,0,0,0,0]
      [1,2,0,0,0,0,0]).toOption.isSome = true := by decide
  cases hc : tacozip_create_multi false [([97],[])] [10,20,0,0,0,0,0] [1,2,0,0,0,0,0] with
  | error e => rw [hc] at hok; simp [Except.toOption] at hok
  | ok r =>
    have main := ghost_roundtrip_create_read false [([97],[])] [10,20,0,0,0,0,0]
      [1,2,0,0,0,0,0] r (by decide) (by decide) hc
    simp only [Except.map]
    rw [main.1]
    rfl

/-! ## Update-loop lemmas -/

theorem update_pairs_go_error_is_io (es : List (Nat × Nat)) (f : List Nat) (i : Nat)
    (w : Nat → Bool) (e : Err) (h : (update_pairs_go f es i w).1 = .error e) :
    e = .ioError := by
  induction es generalizing f i with
  | nil => simp [update_pairs_go] at h
  | cons p rest ih =>
    simp only [update_pairs_go] at h
    split at h
    · simpa using h.symm
    · exact ih _ _ h

theorem update_pairs_go_ok_of_nofail (es : List (Nat × Nat)) (f : List Nat) (i : Nat)
    (w : Nat → Bool) (hw : ∀ k, w k = false) :
    (update_pairs_go f es i w).1 = .ok () := by
  induction es generalizing f i with
  | nil => rfl
  | cons p rest ih =>
    simp only [update_pairs_go, hw (i + 1)]
    exact ih _ _

theorem writeAt_length (f bs : List Nat) (p : Nat) (h : p + bs.length ≤ f.length) :
    (writeAt f p bs).length = f.length := by
  simp only [writeAt, List.length_append, List.length_take, List.length_drop]
  omega

theorem writeAt_take_add (f bs : List Nat) (p : Nat) (h : p + bs.length ≤ f.length) :
    (writeAt f p bs).take (p + bs.length) = f.take p ++ bs := by
  rw [writeAt]
  exact List.take_left' (by simp only [List.length_append, List.length_take]; omega)

theorem writeAt_drop_ge (f bs : List Nat) (p n : Nat) (h : p + bs.length ≤ f.length)
    (hn : p + bs.length ≤ n) : (writeAt f p bs).drop n = f.drop n := by
  have hd : (writeAt f p bs).drop (p + bs.length) = f.drop (p + bs.length) := by
    rw [writeAt]
    exact List.drop_left' (by simp only [List.length_append, List.length_take]; omega)
  have hn' : n = (p + bs.length) + (n - (p + bs.length)) := by omega
  rw [hn', ← List.drop_drop, hd, List.drop_drop]

theorem update_pairs_go_ok_eq (es : List (Nat × Nat)) (f : List Nat) (i : Nat)
    (w : Nat → Bool) (hf : 48 + i * 16 + es.length * 16 ≤ f.length)
    (hok : (update_pairs_go f es i w).1 = .ok ()) :
    (update_pairs_go f es i w).2 =
      f.take (48 + i * 16) ++ (es.map fun e => le64 e.1 ++ le64 e.2).flatten ++
      f.drop (48 + i * 16 + es.length * 16) := by
  induction es generalizing f i with
  | nil =>
    simp only [update_pairs_go, List.map_nil, List.flatten_nil, List.length_nil,
      Nat.zero_mul, Nat.add_zero, List.append_nil]
    exact (List.take_append_drop _ f).symm
  | cons p rest ih =>
    have hB : (le64 p.1 ++ le64 p.2).length = 16 := rfl
    by_cases hw : w (i + 1) = true
    · simp only [update_pairs_go, hw, if_true] at hok
      simp at hok
    · have hw' : w (i + 1) = false := by revert hw; cases w (i + 1) <;> simp
      simp only [update_pairs_go, hw', Bool.false_eq_true, if_false] at hok ⊢
      have hlen : (writeAt f (48 + i * 16) (le64 p.1 ++ le64 p.2)).length = f.length := by
        apply writeAt_length
        rw [hB]
        simp only [List.length_cons] at hf
        omega
      have hf' : 48 + (i + 1) * 16 + rest.length * 16 ≤
          (writeAt f (48 + i * 16) (le64 p.1 ++ le64 p.2)).length := by
        rw [hlen]
        simp only [List.length_cons] at hf
        omega
      rw [ih _ _ hf' hok]
      have e1 : 48 + (i + 1) * 16 = (48 + i * 16) + (le64 p.1 ++ le64 p.2).length := by
        rw [hB]; ring
      have e2 : 48 + (i + 1) * 16 + rest.length * 16 =
          48 + i * 16 + (p :: rest).length * 16 := by
        simp only [List.length_cons]; ring
      rw [e1, writeAt_take_add _ _ _ (by rw [hB]; simp only [List.length_cons] at hf; omega)]
      rw [← e1, e2, writeAt_drop_ge _ _ _ _
        (by rw [hB]; simp only [List.length_cons] at hf; omega)
        (by rw [hB]; simp only [List.length_cons] at hf; omega)]
      simp only [List.map_cons, List.flatten_cons, List.append_assoc]

/-- Successful `tacozip_update_ghost_multi`: parameter facts and the final file
as an explicit concatenation. -/
theorem update_multi_ok_parts (file offs lens : List Nat) (w : Nat → Bool)
    (h : (tacozip_update_ghost_multi file offs lens w).1 = .ok ()) :
    offs.length = 7 ∧ lens.length = 7 ∧ 160 ≤ file.length ∧
    validate_ghost_buf_multi (file.take 160) = .ok () ∧
    (tacozip_update_ghost_multi file offs lens w).2 =
      file.take 44 ++ [count_valid_entries offs lens % 256] ++ (file.drop 45).take 3 ++
      ((offs.zip lens).map fun e => le64 e.1 ++ le64 e.2).flatten ++ file.drop 160 := by
  by_cases hp : offs.length ≠ TACO_GHOST_MAX_ENTRIES ∨ lens.length ≠ TACO_GHOST_MAX_ENTRIES
  · simp only [tacozip_update_ghost_multi, if_pos hp] at h
    simp at h
  · have ho : offs.length = 7 := by
      simp only [TACO_GHOST_MAX_ENTRIES, not_or, not_not] at hp; omega
    have hl : lens.length = 7 := by
      simp only [TACO_GHOST_MAX_ENTRIES, not_or, not_not] at hp; omega
    by_cases hlen : file.length < TACO_GHOST_SIZE
    · simp only [tacozip_update_ghost_multi, if_neg hp, if_pos hlen] at h
      simp at h
    · have hlen' : 160 ≤ file.length := by
        simp only [TACO_GHOST_SIZE] at hlen; omega
      cases hv : validate_ghost_buf_multi (file.take TACO_GHOST_SIZE) with
      | error e =>
        simp only [tacozip_update_ghost_multi, if_neg hp, if_neg hlen, hv] at h
        simp at h
      | ok u =>
        obtain rfl : u = () := rfl
        by_cases hw0 : w 0 = true
        · simp only [tacozip_update_ghost_multi, if_neg hp, if_neg hlen, hv, hw0,
            if_true] at h
          simp at h
        · have hw0' : w 0 = false := by revert hw0; cases w 0 <;> simp
          have hzip : (offs.zip lens).length = 7 := by
            simp [List.length_zip, ho, hl]
          have hm : (arrays_to_meta_struct offs lens).entries = offs.zip lens := rfl
          have hmc : (arrays_to_meta_struct offs lens).count =
              count_valid_entries offs lens := rfl
          have hw1len : (writeAt file 44 [count_valid_entries offs lens % 256]).length =
              file.length := by
            apply writeAt_length
            simp only [List.length_cons, List.length_nil]
            omega
          have hgo : (update_pairs_go
              (writeAt file 44 [count_valid_entries offs lens % 256])
              (offs.zip lens) 0 w).1 = .ok () := by
            simp only [tacozip_update_ghost_multi, if_neg hp, if_neg hlen, hv, hw0',
              Bool.false_eq_true, if_false] at h
            exact h
          have heq := update_pairs_go_ok_eq (offs.zip lens)
            (writeAt file 44 [count_valid_entries offs lens % 256]) 0 w
            (by rw [hw1len, hzip]; omega) hgo
          refine ⟨ho, hl, hlen', by simpa [TACO_GHOST_SIZE] using hv, ?_⟩
          have hsnd : (tacozip_update_ghost_multi file offs lens w).2 =
              (update_pairs_go (writeAt file 44 [count_valid_entries offs lens % 256])
                (offs.zip lens) 0 w).2 := by
            simp only [tacozip_update_ghost_multi, if_neg hp, if_neg hlen, hv, hw0',
              Bool.false_eq_true, if_false]
            rfl
          rw [hsnd, heq, hzip]
          have e0 : 48 + 0 * 16 = 48 := by norm_num
          rw [e0]
          have hw44 : writeAt file 44 [count_valid_entries offs lens % 256] =
              file.take 44 ++ [count_valid_entries offs lens % 256] ++ file.drop 45 := rfl
          have ht48 : (writeAt file 44 [count_valid_entries offs lens % 256]).take 48 =
              file.take 44 ++ [count_valid_entries offs lens % 256] ++ (file.drop 45).take 3 := by
            rw [hw44]
            have h45 : (file.take 44 ++ [count_valid_entries offs lens % 256]).length = 45 := by
              simp only [List.length_append, List.length_take, List.length_cons,
                List.length_nil]
              omega
            have : (48 : Nat) = (file.take 44 ++ [count_valid_entries offs lens % 256]).length + 3 := by
              rw [h45]
            rw [this, List.take_append]
          have hd160 : (writeAt file 44 [count_valid_entries offs lens % 256]).drop 160 =
              file.drop 160 := by
            apply writeAt_drop_ge
            · simp only [List.length_cons, List.length_nil]; omega
            · simp only [List.length_cons, List.length_nil]; omega
          rw [ht48, hd160]

deriving instance DecidableEq for Except

set_option maxRecDepth 4000

/-- Claim C2 counterexample: on a valid just-created ghost file, a schedule
where the count-byte write succeeds but the first pair write fails makes
`tacozip_update_ghost_multi` return an I/O error while the file already
differs from its pre-call state (byte 44 changed). -/
theorem update_ghost_multi_atomicity_cex :
    (tacozip_update_ghost_multi
        (write_ghost_multi (arrays_to_meta_struct [0,0,0,0,0,0,0] [0,0,0,0,0,0,0]))
        [5,0,0,0,0,0,0] [5,0,0,0,0,0,0] (fun k => k == 1)).1 = .error .ioError ∧
    (tacozip_update_ghost_multi
        (write_ghost_multi (arrays_to_meta_struct [0,0,0,0,0,0,0] [0,0,0,0,0,0,0]))
        [5,0,0,0,0,0,0] [5,0,0,0,0,0,0] (fun k => k == 1)).2 ≠
      write_ghost_multi (arrays_to_meta_struct [0,0,0,0,0,0,0] [0,0,0,0,0,0,0]) := by
  constructor
  · decide
  · decide

/-- Claim C2 amended: an error raised before any write operation was issued
(parameter error, short read, invalid ghost) leaves the file byte-identical,
and when every issued write succeeds, any error outcome leaves the file
byte-identical; only an I/O failure of one of the in-place write operations
can leave a partially updated file. -/
theorem update_ghost_multi_atomicity_amended (file offs lens : List Nat)
    (w : Nat → Bool) :
    ((∀ k, w k = false) → ∀ e : Err,
        (tacozip_update_ghost_multi file offs lens w).1 = .error e →
        (tacozip_update_ghost_multi file offs lens w).2 = file) ∧
    ((tacozip_update_ghost_multi file offs lens w).1 = .error .paramError →
        (tacozip_update_ghost_multi file offs lens w).2 = file) ∧
    ((tacozip_update_ghost_multi file offs lens w).1 = .error .invalidGhost →
        (tacozip_update_ghost_multi file offs lens w).2 = file) := by
  by_cases hp : offs.length ≠ TACO_GHOST_MAX_ENTRIES ∨ lens.length ≠ TACO_GHOST_MAX_ENTRIES
  · simp only [tacozip_update_ghost_multi, if_pos hp]
    simp
  · by_cases hlen : file.length < TACO_GHOST_SIZE
    · simp only [tacozip_update_ghost_multi, if_neg hp, if_pos hlen]
      simp
    · cases hv : validate_ghost_buf_multi (file.take TACO_GHOST_SIZE) with
      | error e =>
        simp only [tacozip_update_ghost_multi, if_neg hp, if_neg hlen, hv]
        simp
      | ok u =>
        obtain rfl : u = () := rfl
        by_cases hw0 : w 0 = true
        · simp only [tacozip_update_ghost_multi, if_neg hp, if_neg hlen, hv, hw0,
            if_true]
          simp
        · have hw0' : w 0 = false := by revert hw0; cases w 0 <;> simp
          simp only [tacozip_update_ghost_multi, if_neg hp, if_neg hlen, hv, hw0',
            Bool.false_eq_true, if_false]
          refine ⟨?_, ?_, ?_⟩
          · intro hw e he
            have := update_pairs_go_ok_of_nofail
              (arrays_to_meta_struct offs lens).entries
              (writeAt file 44 [(arrays_to_meta_struct offs lens).count % 256]) 0 w hw
            rw [this] at he
            simp at he
          · intro he
            have := update_pairs_go_error_is_io _ _ _ _ _ he
            simp at this
          · intro he
            have := update_pairs_go_error_is_io _ _ _ _ _ he
            simp at this

/-- Witness for the amended C2 at a concrete input (file shorter than the
ghost, fault-free write schedule). -/
theorem update_ghost_multi_atomicity_amended_witness :
    (tacozip_update_ghost_multi [0,0] [0,0,0,0,0,0,0] [0,0,0,0,0,0,0]
      (fun _ => false)).2 = [0,0] :=
  (update_ghost_multi_atomicity_amended [0,0] [0,0,0,0,0,0,0] [0,0,0,0,0,0,0]
    (fun _ => false)).1 (fun _ => rfl) .ioError (by decide)

theorem getD_take_lt (l : List Nat) (n i : Nat) (h : i < n) :
    (l.take n).getD i 0 = l.getD i 0 := by
  simp [List.getD_eq_getElem?_getD, List.getElem?_take_of_lt h]

theorem getD_drop_add (l : List Nat) (m i : Nat) :
    (l.drop m).getD i 0 = l.getD (m + i) 0 := by
  simp [List.getD_eq_getElem?_getD, List.getElem?_drop]

/-- Frame facts of a successful multi update (shared between claims). -/
theorem update_multi_frame_facts (file offs lens : List Nat) (w : Nat → Bool)
    (h : (tacozip_update_ghost_multi file offs lens w).1 = .ok ()) :
    (tacozip_update_ghost_multi file offs lens w).2.length = file.length ∧
    (∀ j, j < 44 →
      (tacozip_update_ghost_multi file offs lens w).2.getD j 0 = file.getD j 0) ∧
    (∀ j, 45 ≤ j → j < 48 →
      (tacozip_update_ghost_multi file offs lens w).2.getD j 0 = file.getD j 0) ∧
    (∀ j, 160 ≤ j →
      (tacozip_update_ghost_multi file offs lens w).2.getD j 0 = file.getD j 0) ∧
    (tacozip_update_ghost_multi file offs lens w).2.getD 44 0 =
      count_valid_entries offs lens := by
  obtain ⟨ho, hl, hflen, hval, heq⟩ := update_multi_ok_parts file offs lens w h
  have hzip : (offs.zip lens).length = 7 := by simp [List.length_zip, ho, hl]
  have hP : ((offs.zip lens).map fun e => le64 e.1 ++ le64 e.2).flatten.length = 112 := by
    rw [pairs_flatten_length, hzip]
  have hA : (file.take 44).length = 44 := by
    simp only [List.length_take]; omega
  have hcnt : count_valid_entries offs lens % 256 = count_valid_entries offs lens := by
    have := count_valid_entries_le offs lens
    rw [ho] at this
    omega
  have hC : ((file.drop 45).take 3).length = 3 := by
    simp only [List.length_take, List.length_drop]; omega
  rw [heq]
  refine ⟨?_, ?_, ?_, ?_, ?_⟩
  · simp only [List.length_append, hA, hC, hP, List.length_cons, List.length_nil,
      List.length_drop]
    omega
  · intro j hj
    rw [List.getD_append _ _ _ _ (by simp only [List.length_append, hA, hC, hP,
        List.length_cons, List.length_nil]; omega),
      List.getD_append _ _ _ _ (by simp only [List.length_append, hA, hC,
        List.length_cons, List.length_nil]; omega),
      List.getD_append _ _ _ _ (by simp only [List.length_append, hA,
        List.length_cons, List.length_nil]; omega),
      List.getD_append _ _ _ _ (by omega : j < (file.take 44).length)]
    exact getD_take_lt file 44 j hj
  · intro j hj45 hj48
    rw [List.getD_append _ _ _ _ (by simp only [List.length_append, hA, hC, hP,
        List.length_cons, List.length_nil]; omega),
      List.getD_append _ _ _ _ (by simp only [List.length_append, hA, hC,
        List.length_cons, List.length_nil]; omega),
      List.getD_append_right _ _ _ _ (by simp only [List.length_append, hA,
        List.length_cons, List.length_nil]; omega)]
    have hsub : j - (file.take 44 ++ [count_valid_entries offs lens % 256]).length =
        j - 45 := by
      simp only [List.length_append, hA, List.length_cons, List.length_nil]
    rw [hsub, getD_take_lt _ 3 _ (by omega), getD_drop_add]
    have : 45 + (j - 45) = j := by omega
    rw [this]
  · intro j hj
    rw [List.getD_append_right _ _ _ _ (by simp only [List.length_append, hA, hC, hP,
        List.length_cons, List.length_nil]; omega)]
    have hsub : j - (file.take 44 ++ [count_valid_entries offs lens % 256] ++
        (file.drop 45).take 3 ++
        ((offs.zip lens).map fun e => le64 e.1 ++ le64 e.2).flatten).length =
        j - 160 := by
      simp only [List.length_append, hA, hC, hP, List.length_cons, List.length_nil]
    rw [hsub, getD_drop_add]
    have : 160 + (j - 160) = j := by omega
    rw [this]
  · rw [List.getD_append _ _ _ _ (by simp only [List.length_append, hA, hC, hP,
        List.length_cons, List.length_nil]; omega),
      List.getD_append _ _ _ _ (by simp only [List.length_append, hA, hC,
        List.length_cons, List.length_nil]; omega),
      List.getD_append _ _ _ _ (by simp only [List.length_append, hA,
        List.length_cons, List.length_nil]; omega),
      List.getD_append_right _ _ _ _ (by omega : (file.take 44).length ≤ 44)]
    rw [hA]
    show [count_valid_entries offs lens % 256].getD 0 0 = _
    simp only [List.getD_cons_zero]
    exact hcnt

/-- Claim C4: after a successful `tacozip_update_ghost_multi` on an archive
with a valid ghost, bytes [0..44) and the padding bytes [45..48) are unchanged,
no byte at offset 160 or beyond changes, the length is preserved, and the byte
at offset 44 is the recomputed count. -/
theorem update_ghost_multi_frame (file offs lens : List Nat) (w : Nat → Bool)
    (h : (tacozip_update_ghost_multi file offs lens w).1 = .ok ()) :
    (tacozip_update_ghost_multi file offs lens w).2.length = file.length ∧
    (∀ j, j < 44 →
      (tacozip_update_ghost_multi file offs lens w).2.getD j 0 = file.getD j 0) ∧
    (∀ j, 45 ≤ j → j < 48 →
      (tacozip_update_ghost_multi file offs lens w).2.getD j 0 = file.getD j 0) ∧
    (∀ j, 160 ≤ j →
      (tacozip_update_ghost_multi file offs lens w).2.getD j 0 = file.getD j 0) ∧
    (tacozip_update_ghost_multi file offs lens w).2.getD 44 0 =
      count_valid_entries offs lens :=
  update_multi_frame_facts file offs lens w h

/-- Witness for C4: a concrete successful in-place update. -/
theorem update_ghost_multi_frame_witness :
    (tacozip_update_ghost_multi
      (write_ghost_multi (arrays_to_meta_struct [0,0,0,0,0,0,0] [0,0,0,0,0,0,0]))
      [5,0,0,0,0,0,0] [5,0,0,0,0,0,0] (fun _ => false)).2.getD 44 0 =
      count_valid_entries [5,0,0,0,0,0,0] [5,0,0,0,0,0,0] :=
  (update_ghost_multi_frame _ _ _ _ (by decide)).2.2.2.2

theorem read_ghost_multi_ok_inv (file : List Nat) (m : taco_meta_array_t)
    (h : tacozip_read_ghost_multi file = .ok m) :
    160 ≤ file.length ∧
    validate_ghost_buf_multi (file.take 160) = .ok () ∧
    (file.take 160).getD 44 0 ≤ 7 ∧
    m = ⟨(file.take 160).getD 44 0, (List.range 7).map fun i =>
      (le64_read ((file.take 160).drop (48 + i * 16)),
       le64_read ((file.take 160).drop (48 + i * 16 + 8)))⟩ := by
  by_cases hlen : file.length < TACO_GHOST_SIZE
  · simp only [tacozip_read_ghost_multi, if_pos hlen] at h
    simp at h
  · cases hv : validate_ghost_buf_multi (file.take TACO_GHOST_SIZE) with
    | error e =>
      simp only [tacozip_read_ghost_multi, if_neg hlen, hv] at h
      simp at h
    | ok u =>
      obtain rfl : u = () := rfl
      by_cases hc : TACO_GHOST_MAX_ENTRIES < (file.take TACO_GHOST_SIZE).getD 44 0
      · simp only [tacozip_read_ghost_multi, if_neg hlen, hv, if_pos hc] at h
        simp at h
      · simp only [tacozip_read_ghost_multi, if_neg hlen, hv, if_neg hc] at h
        refine ⟨by simp only [TACO_GHOST_SIZE] at hlen; omega,
          by simpa only [TACO_GHOST_SIZE] using hv,
          by simp only [TACO_GHOST_MAX_ENTRIES, TACO_GHOST_SIZE, not_lt] at hc ⊢; omega,
          ?_⟩
        exact (Except.ok.inj h).symm

theorem list_length_ge_eight {l : List Nat} (h : 8 ≤ l.length) :
    ∃ b0 b1 b2 b3 b4 b5 b6 b7 t, l = b0::b1::b2::b3::b4::b5::b6::b7::t := by
  rcases l with _ | ⟨b0, _ | ⟨b1, _ | ⟨b2, _ | ⟨b3, _ | ⟨b4, _ | ⟨b5, _ | ⟨b6, _ | ⟨b7, t⟩⟩⟩⟩⟩⟩⟩⟩ <;>
    simp only [List.length_nil, List.length_cons] at h <;>
    first
      | exact ⟨b0, b1, b2, b3, b4, b5, b6, b7, t, rfl⟩
      | omega

theorem le64_le64_read_of_bytes (l : List Nat) (h8 : 8 ≤ l.length)
    (hb : ∀ x ∈ l, x < 256) : le64 (le64_read l) = l.take 8 := by
  obtain ⟨b0, b1, b2, b3, b4, b5, b6, b7, t, rfl⟩ := list_length_ge_eight h8
  have ht : (b0::b1::b2::b3::b4::b5::b6::b7::t).take 8 = [b0,b1,b2,b3,b4,b5,b6,b7] := rfl
  rw [ht]
  exact le64_le64_read_cons b0 b1 b2 b3 b4 b5 b6 b7 t
    (hb _ (by simp)) (hb _ (by simp)) (hb _ (by simp)) (hb _ (by simp))
    (hb _ (by simp)) (hb _ (by simp)) (hb _ (by simp)) (hb _ (by simp))

theorem take_eight_split (l : List Nat) (m n : Nat) :
    (l.drop m).take (8 + n) = (l.drop m).take 8 ++ (l.drop (m + 8)).take n := by
  rw [List.take_add, List.drop_drop]

theorem take_split_at (l : List Nat) (m m8 n n8 : Nat) (hm : m8 = m + 8)
    (hn : n8 = 8 + n) :
    (l.drop m).take n8 = (l.drop m).take 8 ++ (l.drop m8).take n := by
  subst hm
  subst hn
  rw [List.take_add, List.drop_drop]

/-! ## Lemmas for the legacy single-entry update -/

theorem ghost_tail_drop48 (f1 : List Nat) (c : Nat) (P D : List Nat)
    (hf : 160 ≤ f1.length) :
    (f1.take 44 ++ [c] ++ (f1.drop 45).take 3 ++ P ++ D).drop 48 = P ++ D := by
  have hX : (f1.take 44 ++ [c] ++ (f1.drop 45).take 3).length = 48 := by
    simp only [List.length_append, List.length_take, List.length_cons,
      List.length_nil, List.length_drop]
    omega
  rw [List.drop_append_of_le_length (by simp only [List.length_append, hX]; omega),
    List.drop_append_of_le_length (by rw [hX]),
    List.drop_eq_nil_of_le (by rw [hX]), List.nil_append]

theorem take16_two_le64 (a b : Nat) (r s : List Nat) :
    ((le64 a ++ le64 b ++ r) ++ s).take 16 = le64 a ++ le64 b := by
  have h16 : (le64 a ++ le64 b).length = 16 := rfl
  rw [List.take_append_of_le_length
      (by simp only [List.length_append, h16]; omega),
    List.take_append_of_le_length (by rw [h16]),
    List.take_of_length_le (by rw [h16])]

theorem drop16_two_le64 (a b : Nat) (r s : List Nat) :
    ((le64 a ++ le64 b ++ r) ++ s).drop 16 = r ++ s := by
  have h16 : (le64 a ++ le64 b).length = 16 := rfl
  rw [List.drop_append_of_le_length
      (by simp only [List.length_append, h16]; omega),
    List.drop_append_of_le_length (by rw [h16]),
    List.drop_eq_nil_of_le (by rw [h16]), List.nil_append]

set_option maxHeartbeats 2000000 in
/-- Claim C10: a successful legacy `tacozip_update_ghost` writes the new pair
into pair slot 0 (bytes [48..64)), leaves the bytes of pairs 1..6
(bytes [64..160)) identical to their previous values, and stores a count byte
equal to the number of leading non-(0,0) pairs of the resulting seven pairs. -/
theorem legacy_update_sets_first_pair (file : List Nat) (no nl : Nat)
    (w : Nat → Bool) (hb : ∀ x ∈ file, x < 256)
    (h : (tacozip_update_ghost file no nl w).1 = .ok ()) :
    ((tacozip_update_ghost file no nl w).2.drop 48).take 16 = le64 no ++ le64 nl ∧
    ((tacozip_update_ghost file no nl w).2.drop 64).take 96 =
      (file.drop 64).take 96 ∧
    ∃ meta, tacozip_read_ghost_multi file = .ok meta ∧
      (tacozip_update_ghost file no nl w).2.getD 44 0 =
        count_valid_entries ((meta.entries.set 0 (no, nl)).map Prod.fst)
          ((meta.entries.set 0 (no, nl)).map Prod.snd) := by
  cases hr : tacozip_read_ghost_multi file with
  | error e =>
    simp only [tacozip_update_ghost, hr] at h
    simp at h
  | ok meta =>
    obtain ⟨hflen, hval, hcnt7, hm⟩ := read_ghost_multi_ok_inv file meta hr
    subst hm
    simp only [tacozip_update_ghost, hr] at h ⊢
    set L : List (Nat × Nat) := ((List.range 7).map fun i =>
      (le64_read ((file.take 160).drop (48 + i * 16)),
       le64_read ((file.take 160).drop (48 + i * 16 + 8)))).set 0 (no, nl) with hL
    obtain ⟨ho, hl, _, _, heq⟩ := update_multi_ok_parts file _ _ w h
    have hz : ((L.map Prod.fst).zip (L.map Prod.snd)) = L :=
      (List.zip_of_prod rfl rfl).symm
    rw [hz] at heq
    have hex : L = (no, nl) ::
        [(le64_read ((file.take 160).drop 64), le64_read ((file.take 160).drop 72)),
         (le64_read ((file.take 160).drop 80), le64_read ((file.take 160).drop 88)),
         (le64_read ((file.take 160).drop 96), le64_read ((file.take 160).drop 104)),
         (le64_read ((file.take 160).drop 112), le64_read ((file.take 160).drop 120)),
         (le64_read ((file.take 160).drop 128), le64_read ((file.take 160).drop 136)),
         (le64_read ((file.take 160).drop 144), le64_read ((file.take 160).drop 152))] :=
      hL.trans rfl
    have hcnt : count_valid_entries (L.map Prod.fst) (L.map Prod.snd) ≤ 7 := by
      have := count_valid_entries_le (L.map Prod.fst) (L.map Prod.snd)
      rw [ho] at this
      exact this
    -- byte bounds to byte-chunk conversion
    have hbq : ∀ q : Nat, q ≤ 152 →
        le64 (le64_read ((file.take 160).drop q)) = (file.drop q).take 8 := by
      intro q hq
      rw [le64_le64_read_of_bytes _
        (by simp only [List.length_drop, List.length_take]; omega)
        (fun x hx => hb x (List.mem_of_mem_take (List.mem_of_mem_drop hx)))]
      rw [List.drop_take, List.take_take]
      have hmin : min 8 (160 - q) = 8 := by omega
      rw [hmin]
    refine ⟨?_, ?_, ⟨_, rfl, ?_⟩⟩
    · rw [heq, ghost_tail_drop48 _ _ _ _ hflen, hex]
      simp only [List.map_cons, List.map_nil, List.flatten_cons, List.flatten_nil,
        List.append_nil]
      rw [take16_two_le64]
    · have hdd : ∀ l : List Nat, l.drop 64 = (l.drop 48).drop 16 :=
        fun l => (List.drop_drop 16 48 l).symm
      rw [hdd (tacozip_update_ghost_multi file (L.map Prod.fst) (L.map Prod.snd) w).2,
        heq, ghost_tail_drop48 _ _ _ _ hflen, hex]
      simp only [List.map_cons, List.map_nil, List.flatten_cons, List.flatten_nil,
        List.append_nil]
      rw [drop16_two_le64]
      rw [hbq 64 (by omega), hbq 72 (by omega), hbq 80 (by omega), hbq 88 (by omega),
        hbq 96 (by omega), hbq 104 (by omega), hbq 112 (by omega), hbq 120 (by omega),
        hbq 128 (by omega), hbq 136 (by omega), hbq 144 (by omega), hbq 152 (by omega)]
      have hTail : ((file.drop 64).take 8 ++ (file.drop 72).take 8 ++
          ((file.drop 80).take 8 ++ (file.drop 88).take 8 ++
          ((file.drop 96).take 8 ++ (file.drop 104).take 8 ++
          ((file.drop 112).take 8 ++ (file.drop 120).take 8 ++
          ((file.drop 128).take 8 ++ (file.drop 136).take 8 ++
          ((file.drop 144).take 8 ++ (file.drop 152).take 8)))))).length = 96 := by
        simp only [List.length_append, List.length_take, List.length_drop]
        omega
      rw [List.take_append_of_le_length (by rw [hTail]),
        List.take_of_length_le (by rw [hTail])]
      rw [take_split_at file 64 72 88 96 rfl rfl,
        take_split_at file 72 80 80 88 rfl rfl,
        take_split_at file 80 88 72 80 rfl rfl,
        take_split_at file 88 96 64 72 rfl rfl,
        take_split_at file 96 104 56 64 rfl rfl,
        take_split_at file 104 112 48 56 rfl rfl,
        take_split_at file 112 120 40 48 rfl rfl,
        take_split_at file 120 128 32 40 rfl rfl,
        take_split_at file 128 136 24 32 rfl rfl,
        take_split_at file 136 144 16 24 rfl rfl,
        take_split_at file 144 152 8 16 rfl rfl]
      simp only [List.append_assoc]
    · exact (update_multi_frame_facts file (L.map Prod.fst) (L.map Prod.snd) w h).2.2.2.2

/-- Witness for C10 at a concrete input (spec scenario E3 adapted to the
multi-pair ghost): update pair 0 of a fresh two-entry ghost to (7, 9). -/
theorem legacy_update_sets_first_pair_witness :
    ((tacozip_update_ghost
        (write_ghost_multi (arrays_to_meta_struct [10,20,0,0,0,0,0] [1,2,0,0,0,0,0]))
        7 9 (fun _ => false)).2.drop 48).take 16 = le64 7 ++ le64 9 :=
  (legacy_update_sets_first_pair
    (write_ghost_multi (arrays_to_meta_struct [10,20,0,0,0,0,0] [1,2,0,0,0,0,0]))
    7 9 (fun _ => false) (by decide) (by decide)).1

/-! ## Entry-writer lemmas -/

theorem entry_block_length (g : Nat) (n d : List Nat) (crc sz : Nat) :
    (lfh_bytes g n ++ n ++ d ++ dd_bytes crc sz).length = 54 + n.length + d.length := by
  simp only [List.length_append, lfh_bytes, dd_bytes, le16, le32, le64,
    List.length_cons, List.length_nil]
  omega

theorem add_file_ok_shape (utf8 : Bool) (off : Nat) (n d : List Nat)
    (bytes : List Nat) (ent : cd_ent_t)
    (h : add_file utf8 off n d = .ok (bytes, ent)) :
    n.length ≤ 0xFFFF ∧
    bytes = lfh_bytes (gpflags_of utf8) n ++ n ++ d ++ dd_bytes (crc32_final d) d.length ∧
    ent = ⟨n, gpflags_of utf8, METHOD_STORE, crc32_final d, d.length, d.length, off⟩ := by
  by_cases hn : 0xFFFF < n.length
  · simp only [add_file, if_pos hn] at h
    simp at h
  · simp only [add_file, if_neg hn] at h
    obtain ⟨h1, h2⟩ := Prod.mk.injEq .. ▸ (Except.ok.inj h)
    exact ⟨by omega, h1.symm, h2.symm⟩

theorem add_files_ok_facts (utf8 : Bool) (off : Nat)
    (files : List (List Nat × List Nat)) (body : List Nat) (ents : List cd_ent_t)
    (h : add_files utf8 off files = .ok (body, ents)) :
    ents.length = files.length ∧
    ents.map (fun e => (e.crc32, e.comp_size, e.uncomp_size)) =
      files.map (fun p => (crc32_final p.2, p.2.length, p.2.length)) ∧
    (∀ e ∈ ents, off ≤ e.lfh_offset) ∧
    List.Pairwise (fun a b => a.lfh_offset < b.lfh_offset) ents ∧
    (ents.map (fun e => e.lfh_offset)).head? = files.head?.map (fun _ => off) ∧
    (∀ e ∈ ents, e.name.length ≤ 0xFFFF) := by
  induction files generalizing off body ents with
  | nil =>
    simp only [add_files] at h
    obtain ⟨h1, h2⟩ := Prod.mk.injEq .. ▸ (Except.ok.inj h)
    subst h2
    simp
  | cons p rest ih =>
    obtain ⟨n, d⟩ := p
    simp only [add_files] at h
    cases ha : add_file utf8 off n d with
    | error e => rw [ha] at h; simp at h
    | ok q =>
      obtain ⟨bytes, ent⟩ := q
      rw [ha] at h
      simp only [Except.ok.injEq] at h
      cases hrec : add_files utf8 (off + bytes.length) rest with
      | error e => rw [hrec] at h; simp at h
      | ok q2 =>
        obtain ⟨bs, es⟩ := q2
        rw [hrec] at h
        simp only [Except.ok.injEq, Prod.mk.injEq] at h
        obtain ⟨hbody, hents⟩ := h
        subst hents
        obtain ⟨hn, hbytes, hent⟩ := add_file_ok_shape utf8 off n d bytes ent ha
        obtain ⟨ih1, ih2, ih3, ih4, ih5, ih6⟩ := ih (off + bytes.length) bs es hrec
        have hpos : 0 < bytes.length := by
          rw [hbytes, entry_block_length]
          omega
        refine ⟨?_, ?_, ?_, ?_, ?_, ?_⟩
        · simp [ih1]
        · simp only [List.map_cons, ih2, hent]
        · intro e he
          rcases List.mem_cons.mp he with rfl | hmem
          · rw [hent]
          · exact le_trans (by omega) (ih3 e hmem)
        · rw [List.pairwise_cons]
          refine ⟨?_, ih4⟩
          intro e hmem
          have := ih3 e hmem
          rw [hent]
          show off < e.lfh_offset
          omega
        · simp [hent]
        · intro e he
          rcases List.mem_cons.mp he with rfl | hmem
          · rw [hent]; exact hn
          · exact ih6 e hmem

theorem cdfh_blocks_ok_of_names (ents : List cd_ent_t)
    (h : ∀ e ∈ ents, e.name.length ≤ 0xFFFF) :
    ∃ bs, cdfh_blocks ents = .ok bs := by
  induction ents with
  | nil => exact ⟨[], rfl⟩
  | cons e rest ih =>
    obtain ⟨bs, hbs⟩ := ih (fun e' he' => h e' (List.mem_cons_of_mem _ he'))
    refine ⟨cdfh_block e ++ bs, ?_⟩
    simp only [cdfh_blocks, hbs]
    rw [if_neg (by have := h e (List.mem_cons_self _ _); omega)]

theorem add_files_error_is_param (utf8 : Bool) (off : Nat)
    (files : List (List Nat × List Nat)) (e : Err)
    (h : add_files utf8 off files = .error e) : e = .paramError := by
  induction files generalizing off with
  | nil => simp [add_files] at h
  | cons p rest ih =>
    obtain ⟨n, d⟩ := p
    simp only [add_files] at h
    cases ha : add_file utf8 off n d with
    | error e2 =>
      rw [ha] at h
      simp only [Except.error.injEq] at h
      subst h
      by_cases hn : 0xFFFF < n.length
      · simp only [add_file, if_pos hn, Except.error.injEq] at ha
        exact ha.symm
      · simp only [add_file, if_neg hn] at ha
        simp at ha
    | ok q =>
      obtain ⟨bytes, ent⟩ := q
      rw [ha] at h
      simp only at h
      cases hrec : add_files utf8 (off + bytes.length) rest with
      | error e2 =>
        rw [hrec] at h
        simp only [Except.error.injEq] at h
        subst h
        exact ih _ hrec
      | ok q2 =>
        obtain ⟨bs, es⟩ := q2
        rw [hrec] at h
        simp at h

theorem add_files_long_name_param (utf8 : Bool) (off : Nat)
    (files : List (List Nat × List Nat))
    (h : ∃ p ∈ files, 0xFFFF < p.1.length) :
    add_files utf8 off files = .error .paramError := by
  induction files generalizing off with
  | nil => simp at h
  | cons p rest ih =>
    obtain ⟨n, d⟩ := p
    obtain ⟨q, hq, hqlen⟩ := h
    rcases List.mem_cons.mp hq with rfl | hmem
    · simp only [add_files, add_file, if_pos hqlen]
    · cases ha : add_file utf8 off n d with
      | error e2 =>
        have he2 : e2 = .paramError := by
          by_cases hn : 0xFFFF < n.length
          · simp only [add_file, if_pos hn, Except.error.injEq] at ha
            exact ha.symm
          · simp only [add_file, if_neg hn] at ha
            simp at ha
        subst he2
        simp only [add_files, ha]
      | ok q2 =>
        obtain ⟨bytes, ent⟩ := q2
        have hrec := ih (off + bytes.length) ⟨q, hmem, hqlen⟩
        simp only [add_files, ha, hrec]


/-! ## C3: trailing pairs -/

theorem getD_zip_eq (os ls : List Nat) (h : os.length = ls.length) (i : Nat) :
    (os.zip ls).getD i (0, 0) = (os.getD i 0, ls.getD i 0) := by
  induction os generalizing ls i with
  | nil =>
    cases ls with
    | nil => cases i <;> rfl
    | cons l ls => simp at h
  | cons o os ih =>
    cases ls with
    | nil => simp at h
    | cons l ls =>
      cases i with
      | zero => rfl
      | succ n =>
        simp only [List.zip_cons_cons, List.getD_cons_succ]
        exact ih ls (by simpa using h) n

set_option maxRecDepth 4000 in
/-- Claim C3 counterexample: a caller array with a non-(0,0) pair after the
first (0,0) pair produces an archive whose stored count is 0 while stored
pair 1 is (5,5), not (0,0). -/
theorem trailing_pairs_zero_cex :
    (tacozip_create_multi false [([97], [])] [0,5,0,0,0,0,0] [0,5,0,0,0,0,0]).toOption.map
      (fun r => tacozip_read_ghost_multi r.bytes) =
    some (.ok ⟨0, [(0,0),(5,5),(0,0),(0,0),(0,0),(0,0),(0,0)]⟩) := by
  decide

/-- Claim C3 amended: pairs at indices not covered by the count are serialized
verbatim from the caller's arrays (so they are (0,0) exactly when the caller
passes zeros there, as the documented usage prescribes). -/
theorem trailing_pairs_amended (utf8 : Bool)
    (files : List (List Nat × List Nat)) (offs lens : List Nat)
    (r : CreateResult)
    (hbo : ∀ v ∈ offs, v < 2 ^ 64) (hbl : ∀ v ∈ lens, v < 2 ^ 64)
    (h : tacozip_create_multi utf8 files offs lens = .ok r) :
    (∀ i, count_valid_entries offs lens ≤ i →
      (tacozip_read_ghost_multi r.bytes).toOption.map
        (fun m => m.entries.getD i (0, 0)) = some (offs.getD i 0, lens.getD i 0)) ∧
    ((∀ j, count_valid_entries offs lens ≤ j → offs.getD j 0 = 0 ∧ lens.getD j 0 = 0) →
      ∀ i, count_valid_entries offs lens ≤ i →
        (tacozip_read_ghost_multi r.bytes).toOption.map
          (fun m => m.entries.getD i (0, 0)) = some (0, 0)) := by
  have hread := read_ghost_after_create utf8 files offs lens r hbo hbl h
  have hlen : offs.length = lens.length := by
    obtain ⟨-, ho, hl, -⟩ := create_multi_ok_shape h
    rw [ho, hl]
  constructor
  · intro i hi
    rw [hread]
    show some ((offs.zip lens).getD i (0, 0)) = _
    rw [getD_zip_eq offs lens hlen i]
  · intro hz i hi
    rw [hread]
    show some ((offs.zip lens).getD i (0, 0)) = _
    rw [getD_zip_eq offs lens hlen i, (hz i hi).1, (hz i hi).2]

/-! ## C6: monotone LFH offsets -/

/-- Claim C6: monotone LFH offsets. -/
theorem lfh_offsets_monotone (utf8 : Bool) (files : List (List Nat × List Nat))
    (offs lens : List Nat) (r : CreateResult)
    (h : tacozip_create_multi utf8 files offs lens = .ok r) :
    List.Pairwise (fun a b => a.lfh_offset < b.lfh_offset) r.ents ∧
    (r.ents.map (fun e => e.lfh_offset)).head? = some 160 := by
  obtain ⟨hne, ho, hl, body, ents, tail, hadd, hcd, hr⟩ := create_multi_ok_shape h
  obtain ⟨hlen, hmap, hge, hpw, hhead, hnames⟩ :=
    add_files_ok_facts utf8 160 files body ents hadd
  have hre : r.ents = ents := by rw [hr]
  rw [hre]
  refine ⟨hpw, ?_⟩
  rw [hhead]
  cases hf : files with
  | nil => rw [hf] at hne; simp at hne
  | cons p rest => simp

/-! ## C7: end-of-archive trailer -/

theorem write_cd_ok_shape (ents : List cd_ent_t) (cd_start : Nat) (tail : List Nat)
    (h : write_cd_and_eocd ents cd_start = .ok tail) :
    ∃ blocks, cdfh_blocks ents = .ok blocks ∧
      tail = blocks ++ zip64_eocd_bytes ents.length (cd_start + blocks.length - cd_start) cd_start ++
        zip64_locator_bytes (cd_start + blocks.length) ++ eocd_bytes := by
  cases hb : cdfh_blocks ents with
  | error e =>
    simp only [write_cd_and_eocd, hb] at h
    simp at h
  | ok blocks =>
    simp only [write_cd_and_eocd, hb, Except.ok.injEq] at h
    exact ⟨blocks, rfl, h.symm⟩

/-- Claim C7: ZIP64 EOCD counts both equal the number of source files (the
ghost is not counted), and the classic EOCD carries the sentinel values. -/
theorem eocd_trailer_contents (utf8 : Bool) (files : List (List Nat × List Nat))
    (offs lens : List Nat) (r : CreateResult)
    (h64 : files.length < 2 ^ 64)
    (h : tacozip_create_multi utf8 files offs lens = .ok r) :
    r.ents.length = files.length ∧
    (∃ pre cd_size cd_start,
      r.bytes = pre ++ zip64_eocd_bytes files.length cd_size cd_start ++
        zip64_locator_bytes pre.length ++ eocd_bytes ∧
      le64_read ((zip64_eocd_bytes files.length cd_size cd_start).drop 24) =
        files.length ∧
      le64_read ((zip64_eocd_bytes files.length cd_size cd_start).drop 32) =
        files.length) ∧
    le16_read (eocd_bytes.drop 8) = 0xFFFF ∧
    le16_read (eocd_bytes.drop 10) = 0xFFFF ∧
    le32_read (eocd_bytes.drop 12) = 0xFFFFFFFF ∧
    le32_read (eocd_bytes.drop 16) = 0xFFFFFFFF ∧
    le16_read (eocd_bytes.drop 20) = 0 := by
  obtain ⟨hne, ho, hl, body, ents, tail, hadd, hcd, hr⟩ := create_multi_ok_shape h
  obtain ⟨hlen, -, -, -, -, -⟩ := add_files_ok_facts utf8 160 files body ents hadd
  obtain ⟨blocks, hb, htail⟩ := write_cd_ok_shape ents (160 + body.length) tail hcd
  have hglen : (write_ghost_multi (arrays_to_meta_struct offs lens)).length = 160 := by
    apply write_ghost_multi_length
    simp [arrays_to_meta_struct, List.length_zip, ho, hl]
  have hents : r.ents = ents := by rw [hr]
  have hprelen :
      (write_ghost_multi (arrays_to_meta_struct offs lens) ++ body ++ blocks).length =
        160 + body.length + blocks.length := by
    simp only [List.length_append, hglen]
  refine ⟨by rw [hents, hlen], ?_, by decide, by decide, by decide, by decide, by decide⟩
  refine ⟨write_ghost_multi (arrays_to_meta_struct offs lens) ++ body ++ blocks,
    160 + body.length + blocks.length - (160 + body.length), 160 + body.length, ?_, ?_, ?_⟩
  · rw [hr]
    show write_ghost_multi (arrays_to_meta_struct offs lens) ++ body ++ tail = _
    rw [htail, hlen, hprelen]
    simp only [List.append_assoc]
  · have : le64_read ((zip64_eocd_bytes files.length
        (160 + body.length + blocks.length - (160 + body.length))
        (160 + body.length)).drop 24) = files.length % 18446744073709551616 :=
      le64_read_le64_append files.length _
    rw [this, Nat.mod_eq_of_lt (by norm_num at h64 ⊢; omega)]
  · have : le64_read ((zip64_eocd_bytes files.length
        (160 + body.length + blocks.length - (160 + body.length))
        (160 + body.length)).drop 32) = files.length % 18446744073709551616 :=
      le64_read_le64_append files.length _
    rw [this, Nat.mod_eq_of_lt (by norm_num at h64 ⊢; omega)]

/-! ## C8, C9 -/

theorem map_eq_getD {α β γ : Type} (f : α → γ) (g : β → γ) (dA : α) (dB : β)
    (A : List α) (B : List β) (h : A.map f = B.map g) (j : Nat) (hj : j < B.length) :
    f (A.getD j dA) = g (B.getD j dB) := by
  induction A generalizing B j with
  | nil =>
    cases B with
    | nil => simp at hj
    | cons b bs => simp at h
  | cons a as ih =>
    cases B with
    | nil => simp at hj
    | cons b bs =>
      simp only [List.map_cons, List.cons.injEq] at h
      cases j with
      | zero => simpa using h.1
      | succ n =>
        simp only [List.getD_cons_succ]
        exact ih bs h.2 n (by simpa using hj)

/-- Claim C8: an empty source file yields an entry with CRC 0 and zero sizes,
and the archive still carries a valid ghost. -/
theorem empty_file_entry (utf8 : Bool) (files : List (List Nat × List Nat))
    (offs lens : List Nat) (r : CreateResult) (i : Nat)
    (h : tacozip_create_multi utf8 files offs lens = .ok r)
    (hi : i < files.length) (hdata : (files.getD i ([], [])).2 = []) :
    (r.ents.getD i default).crc32 = 0 ∧
    (r.ents.getD i default).comp_size = 0 ∧
    (r.ents.getD i default).uncomp_size = 0 ∧
    validate_ghost_buf_multi (r.bytes.take 160) = .ok () := by
  obtain ⟨hne, ho, hl, body, ents, tail, hadd, hcd, hr⟩ := create_multi_ok_shape h
  obtain ⟨hlen, hmap, -, -, -, -⟩ := add_files_ok_facts utf8 160 files body ents hadd
  have hents : r.ents = ents := by rw [hr]
  have hfield : ((ents.getD i default).crc32, (ents.getD i default).comp_size,
      (ents.getD i default).uncomp_size) =
      (crc32_final (files.getD i ([], [])).2, (files.getD i ([], [])).2.length,
       (files.getD i ([], [])).2.length) :=
    map_eq_getD (fun e => (e.crc32, e.comp_size, e.uncomp_size))
      (fun p => (crc32_final p.2, p.2.length, p.2.length)) default ([], [])
      ents files hmap i hi
  rw [hdata] at hfield
  simp only [Prod.mk.injEq] at hfield
  rw [show r.ents = ents from by rw [hr]]
  refine ⟨hfield.1.trans (by decide), hfield.2.1.trans rfl, hfield.2.2.trans rfl, ?_⟩
  -- ghost validity
  obtain ⟨o0, o1, o2, o3, o4, o5, o6, rfl⟩ := list_length_seven ho
  obtain ⟨l0, l1, l2, l3, l4, l5, l6, rfl⟩ := list_length_seven hl
  have hc : count_valid_entries [o0,o1,o2,o3,o4,o5,o6] [l0,l1,l2,l3,l4,l5,l6] ≤ 7 := by
    have := count_valid_entries_le [o0,o1,o2,o3,o4,o5,o6] [l0,l1,l2,l3,l4,l5,l6]
    simpa using this
  have hg : r.bytes = write_ghost_multi ⟨count_valid_entries [o0,o1,o2,o3,o4,o5,o6]
      [l0,l1,l2,l3,l4,l5,l6], [(o0,l0),(o1,l1),(o2,l2),(o3,l3),(o4,l4),(o5,l5),(o6,l6)]⟩ ++
      (body ++ tail) := by
    rw [hr]
    show write_ghost_multi (arrays_to_meta_struct _ _) ++ body ++ tail = _
    rw [List.append_assoc]
    rfl
  have hwlen : (write_ghost_multi ⟨count_valid_entries [o0,o1,o2,o3,o4,o5,o6]
      [l0,l1,l2,l3,l4,l5,l6],
      [(o0,l0),(o1,l1),(o2,l2),(o3,l3),(o4,l4),(o5,l5),(o6,l6)]⟩).length = 160 := rfl
  rw [hg, List.take_left' hwlen]
  exact validate_ghost_buf_multi_write _ o0 l0 o1 l1 o2 l2 o3 l3 o4 l4 o5 l5 o6 l6 hc

/-- Claim C9: a 65535-byte archive name succeeds; a longer name makes add_file
fail with the parameter error and makes the whole create fail with the
parameter error (no entry is recorded since no result is produced). -/
theorem name_length_boundary (utf8 : Bool) (off : Nat) (name data : List Nat)
    (files : List (List Nat × List Nat)) (offs lens : List Nat) (i : Nat) :
    (name.length = 65535 → ∃ res, add_file utf8 off name data = .ok res) ∧
    (65536 ≤ name.length →
      add_file utf8 off name data = .error .paramError ∧
      (i < files.length → (files.getD i ([], [])).1 = name →
        tacozip_create_multi utf8 files offs lens = .error .paramError)) := by
  constructor
  · intro hn
    refine ⟨(lfh_bytes (gpflags_of utf8) name ++ name ++ data ++
      dd_bytes (crc32_final data) data.length,
      ⟨name, gpflags_of utf8, METHOD_STORE, crc32_final data, data.length,
       data.length, off⟩), ?_⟩
    simp only [add_file, if_neg (by omega : ¬ (0xFFFF < name.length))]
  · intro hn
    constructor
    · simp only [add_file, if_pos (by omega : 0xFFFF < name.length)]
    · intro hi hname
      have hmem : (files.getD i ([], [])) ∈ files := by
        rw [List.getD_eq_getElem _ _ hi]
        exact List.getElem_mem _
      by_cases h0 : files.length = 0
      · omega
      · by_cases harr : offs.length ≠ TACO_GHOST_MAX_ENTRIES ∨
            lens.length ≠ TACO_GHOST_MAX_ENTRIES
        · simp only [tacozip_create_multi, if_neg h0, if_pos harr]
        · simp only [tacozip_create_multi, if_neg h0, if_neg harr]
          rw [add_files_long_name_param utf8 _ files ⟨_, hmem, by rw [hname]; omega⟩]

/-! ## C5: deterministic output and chunked equivalence -/

theorem crc32_update_stream_append (c : Nat) (a b : List Nat) :
    crc32_update_stream c (a ++ b) = crc32_update_stream (crc32_update_stream c a) b := by
  induction a generalizing c with
  | nil => rfl
  | cons x xs ih =>
    simp only [List.cons_append, crc32_update_stream]
    exact ih _

theorem crc32_foldl_flatten (chunks : List (List Nat)) (c : Nat) :
    chunks.foldl crc32_update_stream c = crc32_update_stream c chunks.flatten := by
  induction chunks generalizing c with
  | nil => rfl
  | cons x xs ih =>
    simp only [List.foldl_cons, List.flatten_cons, crc32_update_stream_append, ih]

theorem crc32_fold_eq_final (chunks : List (List Nat)) :
    crc32_fold chunks = crc32_final chunks.flatten := by
  simp only [crc32_fold, crc32_final, crc32_foldl_flatten]

theorem add_file_chunked_eq (utf8 : Bool) (off : Nat) (n : List Nat)
    (chunks : List (List Nat)) :
    add_file_chunked utf8 off n chunks = add_file utf8 off n chunks.flatten := by
  by_cases hn : 0xFFFF < n.length
  · simp only [add_file_chunked, add_file, if_pos hn]
  · simp only [add_file_chunked, add_file, if_neg hn, crc32_fold_eq_final]
    have hlen : (chunks.map List.length).sum = chunks.flatten.length := by
      rw [List.length_flatten]
    rw [hlen]

theorem add_files_chunked_eq (utf8 : Bool) (off : Nat)
    (files : List (List Nat × List (List Nat))) :
    add_files_chunked utf8 off files =
      add_files utf8 off (files.map fun p => (p.1, p.2.flatten)) := by
  induction files generalizing off with
  | nil => rfl
  | cons p rest ih =>
    obtain ⟨n, chunks⟩ := p
    simp only [add_files_chunked, add_files, List.map_cons, add_file_chunked_eq]
    cases ha : add_file utf8 off n chunks.flatten with
    | error e => rfl
    | ok q =>
      obtain ⟨bytes, ent⟩ := q
      simp only [ih (off + bytes.length)]

theorem create_multi_chunked_eq (utf8 : Bool)
    (files : List (List Nat × List (List Nat))) (offs lens : List Nat) :
    tacozip_create_multi_chunked utf8 files offs lens =
      tacozip_create_multi utf8 (files.map fun p => (p.1, p.2.flatten)) offs lens := by
  simp only [tacozip_create_multi_chunked, tacozip_create_multi, List.length_map,
    add_files_chunked_eq]

theorem create_chunked_eq (utf8 : Bool)
    (files : List (List Nat × List (List Nat))) (mo ml : Nat) :
    tacozip_create_chunked utf8 files mo ml =
      tacozip_create utf8 (files.map fun p => (p.1, p.2.flatten)) mo ml := by
  simp only [tacozip_create_chunked, tacozip_create, List.length_map,
    add_files_chunked_eq]

/-- Claim C5: determinism. -/
theorem create_deterministic (utf8 : Bool)
    (files1 files2 : List (List Nat × List (List Nat))) (offs lens : List Nat)
    (mo ml : Nat)
    (hsame : files1.map (fun p => (p.1, p.2.flatten)) =
             files2.map (fun p => (p.1, p.2.flatten))) :
    tacozip_create_multi_chunked utf8 files1 offs lens =
      tacozip_create_multi_chunked utf8 files2 offs lens ∧
    tacozip_create_multi_chunked utf8 files1 offs lens =
      tacozip_create_multi utf8 (files1.map fun p => (p.1, p.2.flatten)) offs lens ∧
    tacozip_create_chunked utf8 files1 mo ml =
      tacozip_create_chunked utf8 files2 mo ml := by
  refine ⟨?_, create_multi_chunked_eq utf8 files1 offs lens, ?_⟩
  · rw [create_multi_chunked_eq, create_multi_chunked_eq, hsame]
  · rw [create_chunked_eq, create_chunked_eq, hsame]

/-- Witness for C5: the same file bytes delivered as one chunk or two chunks
produce identical archives. -/
theorem create_deterministic_witness :
    tacozip_create_multi_chunked false [([97], [[1],[2]])] [0,0,0,0,0,0,0] [0,0,0,0,0,0,0] =
      tacozip_create_multi_chunked false [([97], [[1,2]])] [0,0,0,0,0,0,0] [0,0,0,0,0,0,0] :=
  (create_deterministic false [([97], [[1],[2]])] [([97], [[1,2]])]
    [0,0,0,0,0,0,0] [0,0,0,0,0,0,0] 0 0 (by decide)).1

/-! ## Witnesses for the create-side claims -/

theorem trailing_pairs_amended_witness :
    (tacozip_create_multi false [([97],[])] [0,5,0,0,0,0,0] [0,5,0,0,0,0,0]).toOption.map
      (fun r => (tacozip_read_ghost_multi r.bytes).toOption.map
        (fun m => m.entries.getD 1 (0, 0))) = some (some (5, 5)) := by
  have hok : (tacozip_create_multi false [([97],[])] [0,5,0,0,0,0,0]
      [0,5,0,0,0,0,0]).toOption.isSome = true := by decide
  cases hc : tacozip_create_multi false [([97],[])] [0,5,0,0,0,0,0] [0,5,0,0,0,0,0] with
  | error e => rw [hc] at hok; simp [Except.toOption] at hok
  | ok r =>
    have main := trailing_pairs_amended false [([97],[])] [0,5,0,0,0,0,0]
      [0,5,0,0,0,0,0] r (by decide) (by decide) hc
    show some ((tacozip_read_ghost_multi r.bytes).toOption.map
      (fun m => m.entries.getD 1 (0, 0))) = _
    rw [main.1 1 (by decide)]
    rfl

theorem lfh_offsets_monotone_witness :
    (tacozip_create_multi false [([97],[]),([98],[])] [0,0,0,0,0,0,0]
      [0,0,0,0,0,0,0]).toOption.map
      (fun r => (r.ents.map (fun e => e.lfh_offset)).head?) = some (some 160) := by
  have hok : (tacozip_create_multi false [([97],[]),([98],[])] [0,0,0,0,0,0,0]
      [0,0,0,0,0,0,0]).toOption.isSome = true := by decide
  cases hc : tacozip_create_multi false [([97],[]),([98],[])] [0,0,0,0,0,0,0]
      [0,0,0,0,0,0,0] with
  | error e => rw [hc] at hok; simp [Except.toOption] at hok
  | ok r =>
    have main := lfh_offsets_monotone false [([97],[]),([98],[])] [0,0,0,0,0,0,0]
      [0,0,0,0,0,0,0] r hc
    show some ((r.ents.map (fun e => e.lfh_offset)).head?) = _
    rw [main.2]

theorem eocd_trailer_contents_witness :
    (tacozip_create_multi false [([97],[])] [0,0,0,0,0,0,0]
      [0,0,0,0,0,0,0]).toOption.map (fun r => r.ents.length) = some 1 := by
  have hok : (tacozip_create_multi false [([97],[])] [0,0,0,0,0,0,0]
      [0,0,0,0,0,0,0]).toOption.isSome = true := by decide
  cases hc : tacozip_create_multi false [([97],[])] [0,0,0,0,0,0,0]
      [0,0,0,0,0,0,0] with
  | error e => rw [hc] at hok; simp [Except.toOption] at hok
  | ok r =>
    have main := eocd_trailer_contents false [([97],[])] [0,0,0,0,0,0,0]
      [0,0,0,0,0,0,0] r (by decide) hc
    show some r.ents.length = _
    rw [main.1]
    rfl

theorem empty_file_entry_witness :
    (tacozip_create_multi false [([97],[])] [0,0,0,0,0,0,0]
      [0,0,0,0,0,0,0]).toOption.map
      (fun r => ((r.ents.getD 0 default).crc32, (r.ents.getD 0 default).comp_size,
        (r.ents.getD 0 default).uncomp_size)) = some (0, 0, 0) := by
  have hok : (tacozip_create_multi false [([97],[])] [0,0,0,0,0,0,0]
      [0,0,0,0,0,0,0]).toOption.isSome = true := by decide
  cases hc : tacozip_create_multi false [([97],[])] [0,0,0,0,0,0,0]
      [0,0,0,0,0,0,0] with
  | error e => rw [hc] at hok; simp [Except.toOption] at hok
  | ok r =>
    have main := empty_file_entry false [([97],[])] [0,0,0,0,0,0,0]
      [0,0,0,0,0,0,0] r 0 hc (by decide) (by decide)
    show some ((r.ents.getD 0 default).crc32, (r.ents.getD 0 default).comp_size,
      (r.ents.getD 0 default).uncomp_size) = _
    rw [main.1, main.2.1, main.2.2.1]

theorem name_length_boundary_witness :
    (add_file false 160 (List.replicate 65535 97) []).toOption.isSome = true ∧
    add_file false 160 (List.replicate 65536 97) [] = .error .paramError ∧
    tacozip_create_multi false [(List.replicate 65536 97, [])] [0,0,0,0,0,0,0]
      [0,0,0,0,0,0,0] = .error .paramError := by
  have t1 := (name_length_boundary false 160 (List.replicate 65535 97) [] [] [] [] 0).1
    (by rw [List.length_replicate])
  have t2 := (name_length_boundary false 160 (List.replicate 65536 97) []
    [(List.replicate 65536 97, [])] [0,0,0,0,0,0,0] [0,0,0,0,0,0,0] 0).2
    (by rw [List.length_replicate])
  obtain ⟨res, hres⟩ := t1
  refine ⟨by rw [hres]; rfl, t2.1, t2.2 Nat.one_pos rfl⟩

end Tacozip
